import Mathlib

/-!
Verification development for the hybrid venue-recommendation core:
`backend/app/services/recommendation.py`, `backend/app/services/graph_data.py`,
`backend/app/services/gnn_trainer.py` and `backend/app/ml_models/lightgcn.py`.

Modelling conventions.
* Python floats are modelled as exact rationals; none of the verified
  properties depends on floating-point rounding.
* Transcendental helpers are modelled as oracle parameters that every
  theorem quantifies over: `hav` stands for the haversine distance
  (`RecommendationEngine.haversine_distance`), `sig` for `torch.sigmoid`,
  `invSqrt` for `deg ** (-0.5)` on clamped degrees, and `cosQ` for
  `math.cos` in the group bounding-box precomputation.  Counterexamples
  instantiate the oracles with values the real functions actually attain
  at the relevant inputs (for instance the inverse square root of a
  clamped degree 1 is exactly 1, and a haversine distance can exceed any
  max-distance preference).
* The BPR loss (`lightgcn.bpr_loss`) is genuinely about `exp` and `log`
  numerics, so it alone is modelled over the reals.
* Database queries are modelled as pure list traversals over snapshots of
  the relevant tables; `.sort(key=..., reverse=True)` is modelled by
  `List.insertionSort` with the corresponding relation (the claims only
  use membership of the sorted result).
* Python truthiness is modelled faithfully where the source relies on it:
  `if user.latitude and user.longitude` is false for an absent coordinate
  and for the coordinate `0.0`, `if duration` is false for `None` and for
  `0`, and `if venue_id` is false for `None` and the id `0`.
-/

namespace Luna

/-- Preference snapshot (`models.user.UserPreferences`). -/
structure Prefs where
  cuisine_preferences : List String
  min_price_level : ℤ
  max_price_level : ℤ
  preferred_ambiance : List String
  max_distance : ℚ
  open_to_new_people : Bool
  deriving DecidableEq

/-- Venue attribute snapshot (`models.venue.Venue`). -/
structure Venue where
  id : ℤ
  latitude : ℚ
  longitude : ℚ
  category : String
  cuisine_type : String
  price_level : ℤ
  rating : ℚ
  popularity_score : ℚ
  trending : Bool
  capacity : ℤ
  deriving DecidableEq

/-- User attribute snapshot (`models.user.User`); coordinates are optional
columns. -/
structure UserRow where
  id : ℤ
  latitude : Option ℚ
  longitude : Option ℚ
  activity_score : ℚ
  deriving DecidableEq

/-- Python truthiness of `user.latitude and user.longitude`: both columns
must be present and nonzero. -/
def locTruthy (u : UserRow) : Bool :=
  match u.latitude, u.longitude with
  | some a, some b => a ≠ 0 && b ≠ 0
  | _, _ => false

/-- Default `settings.MAX_DISTANCE_KM`. -/
def maxDistanceKm : ℚ := 50

/-- Default `settings.COMPATIBILITY_THRESHOLD`. -/
def compatibilityThreshold : ℚ := 1 / 2

/-- Weighted average over the accumulated `(score, weight)` pairs, with the
source's neutral `0.5` guard for an empty factor list
(`recommendation.py` lines 300-307). -/
def weightedAverage (sw : List (ℚ × ℚ)) : ℚ :=
  if sw = [] then 1 / 2
  else ((sw.map fun p => p.1 * p.2).sum) / ((sw.map Prod.snd).sum)

/-- Factor pairs appended after the distance factor in
`RecommendationEngine._calculate_venue_score`: price (weight 0.15, only
with a preference row), rating (0.2), popularity (0.1), cuisine match
(0.15, only with a nonempty cuisine preference list), trending (0.1). -/
def scoreFactors (preferences : Option Prefs) (venue : Venue) : List (ℚ × ℚ) :=
  (match preferences with
   | some p =>
     [((if p.min_price_level ≤ venue.price_level ∧ venue.price_level ≤ p.max_price_level
         then 1 else 3 / 10 : ℚ), (3 / 20 : ℚ))]
   | none => ([] : List (ℚ × ℚ))) ++
  [((venue.rating / 5 : ℚ), (1 / 5 : ℚ)), (venue.popularity_score, 1 / 10)] ++
  (match preferences with
   | some p =>
     if p.cuisine_preferences ≠ [] then
       [((if venue.cuisine_type ∈ p.cuisine_preferences then 1 else 1 / 2 : ℚ), (3 / 20 : ℚ))]
     else []
   | none => ([] : List (ℚ × ℚ))) ++
  [((if venue.trending then 1 else 1 / 2 : ℚ), (1 / 10 : ℚ))]

/-- Embedding of `RecommendationEngine._calculate_venue_score`.  The
haversine call is replaced by the distance oracle `hav`; all weights,
cutoffs and the final weighted average follow the source. -/
def calculateVenueScore (hav : ℚ → ℚ → ℚ → ℚ → ℚ) (user : UserRow)
    (preferences : Option Prefs) (venue : Venue) : ℚ :=
  if locTruthy user then
    let distance := hav (user.latitude.getD 0) (user.longitude.getD 0)
      venue.latitude venue.longitude
    let max_distance := match preferences with
      | some p => p.max_distance
      | none => maxDistanceKm
    if distance > max_distance then 0
    else weightedAverage ((1 - distance / max_distance, 3 / 10) :: scoreFactors preferences venue)
  else weightedAverage (scoreFactors preferences venue)

/-- Embedding of `RecommendationEngine._calculate_group_venue_score`.  The
haversine call is replaced by the oracle `hav`; the `cuisine_counts` dict
is represented by the `all_cuisines` list it is built from (key presence
is list membership, the stored count is the number of occurrences). -/
def calculateGroupVenueScore (hav : ℚ → ℚ → ℚ → ℚ → ℚ) (venue : Venue)
    (centroid_lat centroid_lon : ℚ) (all_cuisines : List String)
    (min_prices max_prices : List ℤ) (max_distances : List ℚ)
    (group_size : ℕ) : ℚ :=
  let distance := hav centroid_lat centroid_lon venue.latitude venue.longitude
  let avg_max_distance : ℚ :=
    if max_distances ≠ [] then max_distances.sum / max_distances.length else 10
  if distance > avg_max_distance then 0
  else
    let s1 : ℚ := 1 - distance / avg_max_distance
    let avg_min : ℚ :=
      if min_prices ≠ [] then ((min_prices.map (fun z => (z : ℚ))).sum) / min_prices.length else 1
    let avg_max : ℚ :=
      if max_prices ≠ [] then ((max_prices.map (fun z => (z : ℚ))).sum) / max_prices.length else 4
    let s2 : ℚ := if avg_min ≤ (venue.price_level : ℚ) ∧ (venue.price_level : ℚ) ≤ avg_max
      then 1 else 3 / 10
    let s3 : ℚ := if venue.cuisine_type ∈ all_cuisines
      then ((all_cuisines.count venue.cuisine_type : ℚ)) / group_size
      else 3 / 10
    if venue.capacity < (group_size : ℤ) then 0
    else (s1 + s2 + s3 + 1 + venue.rating / 5) / 5

/-- Embedding of `RecommendationEngine._calculate_preference_similarity_sync`. -/
def preferenceSimilarity (user_pref other_pref : Option Prefs) : ℚ :=
  match user_pref, other_pref with
  | some up, some op =>
    let cuisinePart : List ℚ :=
      if up.cuisine_preferences ≠ [] ∧ op.cuisine_preferences ≠ [] then
        let overlap := (up.cuisine_preferences.toFinset ∩ op.cuisine_preferences.toFinset).card
        let union := (up.cuisine_preferences.toFinset ∪ op.cuisine_preferences.toFinset).card
        [if union > 0 then (overlap : ℚ) / union else 0]
      else []
    let price_intersection : ℚ :=
      max 0 ((min up.max_price_level op.max_price_level : ℤ) -
             (max up.min_price_level op.min_price_level : ℤ) : ℤ)
    let price_union : ℚ :=
      ((max up.max_price_level op.max_price_level : ℤ) -
       (min up.min_price_level op.min_price_level : ℤ) : ℤ)
    let pricePart : List ℚ :=
      [if price_union > 0 then price_intersection / price_union else 1]
    let ambiancePart : List ℚ :=
      if up.preferred_ambiance ≠ [] ∧ op.preferred_ambiance ≠ [] then
        let overlap := (up.preferred_ambiance.toFinset ∩ op.preferred_ambiance.toFinset).card
        let union := (up.preferred_ambiance.toFinset ∪ op.preferred_ambiance.toFinset).card
        [if union > 0 then (overlap : ℚ) / union else 0]
      else []
    let similarities := cuisinePart ++ pricePart ++ ambiancePart
    if similarities ≠ [] then similarities.sum / similarities.length else 1 / 2
  | _, _ => 1 / 2

/-- Embedding of `RecommendationEngine._calculate_compatibility_sync`
(the numeric score; the human-readable reason strings carry no
information used by any claim and are omitted).  `venue_id` follows the
source truthiness check `if venue_id:`. -/
def compatibilityScore (user other : UserRow) (friend_ids : List ℤ)
    (venue_id : Option ℤ) (mutual_count : ℕ)
    (user_pref other_pref : Option Prefs)
    (shared_interest : Bool) (open_to_new : Bool) : ℚ :=
  let rel : ℚ :=
    if other.id ∈ friend_ids then 1
    else if 0 < mutual_count then min ((mutual_count : ℚ) / 5) 1
    else 3 / 10
  let venuePart : List (ℚ × ℚ) :=
    match venue_id with
    | some v => if v ≠ 0 then [((if shared_interest then 1 else 3 / 10 : ℚ), (1 / 5 : ℚ))] else []
    | none => []
  let activity : ℚ := 1 - |user.activity_score - other.activity_score|
  let sw : List (ℚ × ℚ) :=
    (rel, 1 / 4) :: (preferenceSimilarity user_pref other_pref, 1 / 4) ::
      venuePart ++ [(activity, 3 / 20), ((if open_to_new then 1 else 1 / 2 : ℚ), (3 / 20 : ℚ))]
  ((sw.map fun p => p.1 * p.2).sum) / ((sw.map Prod.snd).sum)

/-- Bounds for the renormalized weighted average: with every factor score
in the unit interval and every weight positive, the average stays in the
unit interval. -/
lemma weightedAverage_bounds {l : List (ℚ × ℚ)} (hne : l ≠ [])
    (h : ∀ x ∈ l, 0 ≤ x.1 ∧ x.1 ≤ 1 ∧ 0 < x.2) :
    0 ≤ weightedAverage l ∧ weightedAverage l ≤ 1 := by
  have hW : 0 < (l.map Prod.snd).sum := by
    refine List.sum_pos _ (fun x hx => ?_) (by simpa using hne)
    obtain ⟨p, hp, rfl⟩ := List.mem_map.1 hx
    exact (h p hp).2.2
  have hnum0 : 0 ≤ (l.map fun p => p.1 * p.2).sum := by
    refine List.sum_nonneg fun x hx => ?_
    obtain ⟨p, hp, rfl⟩ := List.mem_map.1 hx
    exact mul_nonneg (h p hp).1 (h p hp).2.2.le
  have hnumW : (l.map fun p => p.1 * p.2).sum ≤ (l.map Prod.snd).sum := by
    refine List.sum_le_sum fun p hp => ?_
    calc p.1 * p.2 ≤ 1 * p.2 :=
          mul_le_mul_of_nonneg_right (h p hp).2.1 (h p hp).2.2.le
      _ = p.2 := one_mul _
  rw [weightedAverage, if_neg hne]
  exact ⟨div_nonneg hnum0 hW.le, (div_le_one hW).mpr hnumW⟩

/-- Strict positivity of the weighted average when some factor is
strictly positive. -/
lemma weightedAverage_pos {l : List (ℚ × ℚ)} (hne : l ≠ [])
    (h : ∀ x ∈ l, 0 ≤ x.1 ∧ x.1 ≤ 1 ∧ 0 < x.2)
    (hex : ∃ x ∈ l, 0 < x.1) : 0 < weightedAverage l := by
  have hW : 0 < (l.map Prod.snd).sum := by
    refine List.sum_pos _ (fun x hx => ?_) (by simpa using hne)
    obtain ⟨p, hp, rfl⟩ := List.mem_map.1 hx
    exact (h p hp).2.2
  obtain ⟨p, hp, hp1⟩ := hex
  have hterm : 0 < p.1 * p.2 := mul_pos hp1 (h p hp).2.2
  have hmem : p.1 * p.2 ∈ l.map fun q => q.1 * q.2 :=
    List.mem_map.2 ⟨p, hp, rfl⟩
  have hnum : 0 < (l.map fun q => q.1 * q.2).sum := by
    have hle := List.single_le_sum (l := l.map fun q => q.1 * q.2)
      (fun x hx => ?_) _ hmem
    · exact lt_of_lt_of_le hterm hle
    · obtain ⟨q, hq, rfl⟩ := List.mem_map.1 hx
      exact mul_nonneg (h q hq).1 (h q hq).2.2.le
  rw [weightedAverage, if_neg hne]
  exact div_pos hnum hW

/-- Factor-list membership bounds for `scoreFactors`: with the venue
rating in `[0, 5]` and the popularity score in `[0, 1]` every recorded
factor score lies in the unit interval and every weight is positive. -/
lemma scoreFactors_mem_bounds {preferences : Option Prefs} {venue : Venue}
    (hr0 : 0 ≤ venue.rating) (hr5 : venue.rating ≤ 5)
    (hp0 : 0 ≤ venue.popularity_score) (hp1 : venue.popularity_score ≤ 1) :
    ∀ x ∈ scoreFactors preferences venue, 0 ≤ x.1 ∧ x.1 ≤ 1 ∧ 0 < x.2 := by
  intro x hx
  have hrat : 0 ≤ venue.rating / 5 ∧ venue.rating / 5 ≤ 1 :=
    ⟨by positivity, by linarith [div_le_one (by norm_num : (0:ℚ) < 5) |>.mpr hr5]⟩
  cases preferences with
  | none =>
    simp only [scoreFactors, List.nil_append, List.cons_append, List.append_nil,
      List.mem_cons, List.mem_singleton, List.not_mem_nil, or_false] at hx
    rcases hx with rfl | rfl | rfl
    · exact ⟨hrat.1, hrat.2, by norm_num⟩
    · exact ⟨hp0, hp1, by norm_num⟩
    · refine ⟨?_, ?_, by norm_num⟩ <;> split <;> norm_num
  | some p =>
    by_cases hc : p.cuisine_preferences = []
    · simp only [scoreFactors, hc, ne_eq, not_true_eq_false, if_false,
        List.cons_append, List.nil_append, List.append_nil, List.mem_cons,
        List.mem_singleton, List.not_mem_nil, or_false] at hx
      rcases hx with rfl | rfl | rfl | rfl
      · refine ⟨?_, ?_, by norm_num⟩ <;> split <;> norm_num
      · exact ⟨hrat.1, hrat.2, by norm_num⟩
      · exact ⟨hp0, hp1, by norm_num⟩
      · refine ⟨?_, ?_, by norm_num⟩ <;> split <;> norm_num
    · simp only [scoreFactors, hc, ne_eq, not_false_eq_true, if_true,
        List.cons_append, List.nil_append, List.append_nil, List.mem_cons,
        List.mem_singleton, List.not_mem_nil, or_false] at hx
      rcases hx with rfl | rfl | rfl | rfl | rfl
      · refine ⟨?_, ?_, by norm_num⟩ <;> split <;> norm_num
      · exact ⟨hrat.1, hrat.2, by norm_num⟩
      · exact ⟨hp0, hp1, by norm_num⟩
      · refine ⟨?_, ?_, by norm_num⟩ <;> split <;> norm_num
      · refine ⟨?_, ?_, by norm_num⟩ <;> split <;> norm_num

/-- The trending factor is always present with score at least one half,
so the rule-based factor list always has a strictly positive entry. -/
lemma scoreFactors_pos_entry (preferences : Option Prefs) (venue : Venue) :
    ∃ x ∈ scoreFactors preferences venue, 0 < x.1 := by
  refine ⟨((if venue.trending then 1 else 1 / 2 : ℚ), (1 / 10 : ℚ)), ?_, ?_⟩
  · simp [scoreFactors]
  · split <;> norm_num

/-- The factor list is never empty (the rating factor is unconditional). -/
lemma scoreFactors_ne_nil (preferences : Option Prefs) (venue : Venue) :
    scoreFactors preferences venue ≠ [] := by
  cases preferences <;> simp [scoreFactors]

/-- C4 (amended).  For every user whose latitude and longitude are both
present and nonzero (the source gates the distance factor on Python
truthiness, `if user.latitude and user.longitude`), every preference
snapshot with a positive max-distance, and every venue with rating in
`[0, 5]` and popularity in `[0, 1]`: the venue-fit score lies in `[0, 1]`
and equals `0` exactly when the (oracle) haversine distance exceeds the
max-distance preference; for any lesser distance it is strictly
positive. -/
theorem claim_C4 (hav : ℚ → ℚ → ℚ → ℚ → ℚ) (user : UserRow) (p : Prefs)
    (venue : Venue) (hloc : locTruthy user = true)
    (hd : 0 ≤ hav (user.latitude.getD 0) (user.longitude.getD 0)
      venue.latitude venue.longitude)
    (hmax : 0 < p.max_distance)
    (hr0 : 0 ≤ venue.rating) (hr5 : venue.rating ≤ 5)
    (hp0 : 0 ≤ venue.popularity_score) (hp1 : venue.popularity_score ≤ 1) :
    (0 ≤ calculateVenueScore hav user (some p) venue ∧
      calculateVenueScore hav user (some p) venue ≤ 1) ∧
    (calculateVenueScore hav user (some p) venue = 0 ↔
      hav (user.latitude.getD 0) (user.longitude.getD 0)
        venue.latitude venue.longitude > p.max_distance) := by
  set d := hav (user.latitude.getD 0) (user.longitude.getD 0)
    venue.latitude venue.longitude with hdEq
  have hs : calculateVenueScore hav user (some p) venue =
      if d > p.max_distance then 0
      else weightedAverage
        ((1 - d / p.max_distance, 3 / 10) :: scoreFactors (some p) venue) := by
    simp only [calculateVenueScore, hloc, if_true, ← hdEq]
  by_cases hfar : d > p.max_distance
  · rw [hs, if_pos hfar]
    exact ⟨⟨le_refl 0, by norm_num⟩, by simpa using hfar⟩
  · rw [hs, if_neg hfar]
    have hdle : d ≤ p.max_distance := not_lt.1 hfar
    have hhead : (0:ℚ) ≤ 1 - d / p.max_distance ∧ (1 - d / p.max_distance : ℚ) ≤ 1 := by
      constructor
      · have := (div_le_one hmax).mpr hdle
        linarith
      · have := div_nonneg hd hmax.le
        linarith
    have hall : ∀ x ∈ (1 - d / p.max_distance, (3 / 10 : ℚ)) :: scoreFactors (some p) venue,
        0 ≤ x.1 ∧ x.1 ≤ 1 ∧ 0 < x.2 := by
      intro x hx
      rcases List.mem_cons.1 hx with rfl | hx
      · exact ⟨hhead.1, hhead.2, by norm_num⟩
      · exact scoreFactors_mem_bounds hr0 hr5 hp0 hp1 x hx
    have hne : ((1 - d / p.max_distance, (3 / 10 : ℚ)) ::
        scoreFactors (some p) venue) ≠ [] := List.cons_ne_nil _ _
    have hpos : 0 < weightedAverage
        ((1 - d / p.max_distance, (3 / 10 : ℚ)) :: scoreFactors (some p) venue) := by
      obtain ⟨x, hxmem, hx1⟩ := scoreFactors_pos_entry (some p) venue
      exact weightedAverage_pos hne hall ⟨x, List.mem_cons_of_mem _ hxmem, hx1⟩
    refine ⟨⟨(weightedAverage_bounds hne hall).1, (weightedAverage_bounds hne hall).2⟩, ?_⟩
    constructor
    · intro h0
      exact absurd h0 (ne_of_gt hpos)
    · intro h
      exact absurd h hfar

/-- C4 witness: a Brooklyn-like user with both coordinates nonzero, a
10 km max-distance preference and a constant distance oracle of 5 km. -/
theorem claim_C4_witness :
    (0 ≤ calculateVenueScore (fun _ _ _ _ => 5)
        ⟨1, some 40, some (-70), 1 / 2⟩
        (some ⟨["italian"], 1, 4, [], 10, true⟩)
        ⟨7, 41, -70, "restaurant", "italian", 2, 4, 1 / 2, true, 10⟩ ∧
      calculateVenueScore (fun _ _ _ _ => 5)
        ⟨1, some 40, some (-70), 1 / 2⟩
        (some ⟨["italian"], 1, 4, [], 10, true⟩)
        ⟨7, 41, -70, "restaurant", "italian", 2, 4, 1 / 2, true, 10⟩ ≤ 1) ∧
    (calculateVenueScore (fun _ _ _ _ => 5)
        ⟨1, some 40, some (-70), 1 / 2⟩
        (some ⟨["italian"], 1, 4, [], 10, true⟩)
        ⟨7, 41, -70, "restaurant", "italian", 2, 4, 1 / 2, true, 10⟩ = 0 ↔
      (fun (_ _ _ _ : ℚ) => (5:ℚ)) 40 (-70) 41 (-70) > (10 : ℚ)) :=
  claim_C4 (fun _ _ _ _ => 5) ⟨1, some 40, some (-70), 1 / 2⟩
    ⟨["italian"], 1, 4, [], 10, true⟩
    ⟨7, 41, -70, "restaurant", "italian", 2, 4, 1 / 2, true, 10⟩
    (by decide) (by norm_num) (by norm_num) (by norm_num) (by norm_num)
    (by norm_num) (by norm_num)

/-- C4 counterexample to the claim as stated.  A user at latitude `0`
(the equator) has a known location, yet `if user.latitude and
user.longitude` is false in Python for the coordinate `0.0`, so the
distance cutoff is skipped: against a venue at `(10, 60)` — whose true
haversine distance from `(0, 50)` is far beyond the 10 km preference,
represented by the distance oracle value `100` — the score is `61 / 70`,
not `0`. -/
theorem claim_C4_cex :
    calculateVenueScore (fun _ _ _ _ => 100)
        ⟨2, some 0, some 50, 1 / 2⟩
        (some ⟨["italian"], 1, 4, [], 10, true⟩)
        ⟨7, 10, 60, "restaurant", "italian", 2, 4, 1 / 2, true, 10⟩ = 61 / 70 ∧
    (100 : ℚ) > (10 : ℚ) ∧
    (⟨2, some 0, some 50, 1 / 2⟩ : UserRow).latitude = some 0 := by
  refine ⟨?_, by norm_num, rfl⟩
  norm_num [calculateVenueScore, locTruthy, scoreFactors, weightedAverage,
    List.cons_ne_nil]

/-- C7 (confirmed).  For every group aggregate and candidate venue, the
group score is exactly `0` iff the venue capacity is below the group size
or the (oracle) centroid distance exceeds the group average max-distance;
otherwise it equals the unweighted mean of the five factor scores
(distance fit, price compatibility, cuisine popularity fraction,
capacity adequacy `1`, rating over five). -/
theorem claim_C7 (hav : ℚ → ℚ → ℚ → ℚ → ℚ) (venue : Venue)
    (clat clon : ℚ) (all_cuisines : List String)
    (min_prices max_prices : List ℤ) (max_distances : List ℚ)
    (group_size : ℕ) (hgs : 0 < group_size)
    (hd : 0 ≤ hav clat clon venue.latitude venue.longitude)
    (hmd : ∀ m ∈ max_distances, 0 < m)
    (hr : 0 ≤ venue.rating) :
    (calculateGroupVenueScore hav venue clat clon all_cuisines min_prices
        max_prices max_distances group_size = 0 ↔
      venue.capacity < (group_size : ℤ) ∨
        hav clat clon venue.latitude venue.longitude >
          (if max_distances ≠ [] then max_distances.sum / max_distances.length
            else 10)) ∧
    (¬ venue.capacity < (group_size : ℤ) →
      ¬ hav clat clon venue.latitude venue.longitude >
          (if max_distances ≠ [] then max_distances.sum / max_distances.length
            else 10) →
      calculateGroupVenueScore hav venue clat clon all_cuisines min_prices
          max_prices max_distances group_size =
        ((1 - hav clat clon venue.latitude venue.longitude /
            (if max_distances ≠ [] then max_distances.sum / max_distances.length
              else 10)) +
         (if (if min_prices ≠ [] then ((min_prices.map (fun z => (z : ℚ))).sum) / min_prices.length else 1)
              ≤ (venue.price_level : ℚ) ∧
            (venue.price_level : ℚ) ≤
              (if max_prices ≠ [] then ((max_prices.map (fun z => (z : ℚ))).sum) / max_prices.length else 4)
            then 1 else 3 / 10) +
         (if venue.cuisine_type ∈ all_cuisines
            then ((all_cuisines.count venue.cuisine_type : ℚ)) / group_size
            else 3 / 10) +
         1 + venue.rating / 5) / 5) := by
  set d := hav clat clon venue.latitude venue.longitude with hdEq
  set A : ℚ := (if max_distances ≠ [] then max_distances.sum / max_distances.length
    else 10) with hAEq
  set s2 : ℚ := (if (if min_prices ≠ [] then ((min_prices.map (fun z => (z : ℚ))).sum) / min_prices.length else 1)
        ≤ (venue.price_level : ℚ) ∧
      (venue.price_level : ℚ) ≤
        (if max_prices ≠ [] then ((max_prices.map (fun z => (z : ℚ))).sum) / max_prices.length else 4)
      then 1 else 3 / 10) with hs2Eq
  set s3 : ℚ := (if venue.cuisine_type ∈ all_cuisines
      then ((all_cuisines.count venue.cuisine_type : ℚ)) / group_size
      else 3 / 10) with hs3Eq
  have hA : 0 < A := by
    rw [hAEq]
    split
    case isTrue hne =>
      have hsum : 0 < max_distances.sum :=
        List.sum_pos _ hmd hne
      have hlen : (0 : ℚ) < max_distances.length := by
        have hlen0 : max_distances.length ≠ 0 := fun h => hne (List.length_eq_zero.1 h)
        exact_mod_cast Nat.pos_of_ne_zero hlen0
      exact div_pos hsum hlen
    case isFalse _ => norm_num
  have hsc : calculateGroupVenueScore hav venue clat clon all_cuisines min_prices
      max_prices max_distances group_size =
      if d > A then 0
      else if venue.capacity < (group_size : ℤ) then 0
      else ((1 - d / A) + s2 + s3 + 1 + venue.rating / 5) / 5 := by
    simp only [calculateGroupVenueScore, ← hdEq, ← hAEq, ← hs2Eq, ← hs3Eq]
  by_cases h1 : d > A
  · rw [hsc, if_pos h1]
    refine ⟨⟨fun _ => Or.inr h1, fun _ => rfl⟩, fun _ h2 => absurd h1 h2⟩
  · by_cases h2 : venue.capacity < (group_size : ℤ)
    · rw [hsc, if_neg h1, if_pos h2]
      exact ⟨⟨fun _ => Or.inl h2, fun _ => rfl⟩, fun hc _ => absurd h2 hc⟩
    · rw [hsc, if_neg h1, if_neg h2]
      have hs1 : 0 ≤ 1 - d / A := by
        have := (div_le_one hA).mpr (not_lt.1 h1)
        linarith
      have hs2b : 3 / 10 ≤ s2 := by
        rw [hs2Eq]; split_ifs <;> norm_num
      have hs3b : 0 ≤ s3 := by
        rw [hs3Eq]; split_ifs
        · positivity
        · norm_num
      have hr5 : 0 ≤ venue.rating / 5 := by positivity
      have hpos : 0 < ((1 - d / A) + s2 + s3 + 1 + venue.rating / 5) / 5 := by
        have hnum : 13 / 10 ≤ (1 - d / A) + s2 + s3 + 1 + venue.rating / 5 := by
          linarith
        linarith
      refine ⟨⟨fun h0 => absurd h0 (ne_of_gt hpos), fun hor => ?_⟩, fun _ _ => rfl⟩
      rcases hor with hc | hdist
      · exact absurd hc h2
      · exact absurd hdist h1

/-- C7 witness: a two-person group, one 20 km max-distance preference,
a venue 5 km from the centroid with capacity 4 and rating 4. -/
theorem claim_C7_witness :
    (calculateGroupVenueScore (fun _ _ _ _ => 5)
        ⟨7, 41, -70, "restaurant", "italian", 2, 4, 1 / 2, true, 4⟩
        40 (-70) ["italian", "italian"] [1] [4] [20] 2 = 0 ↔
      (⟨7, 41, -70, "restaurant", "italian", 2, 4, 1 / 2, true, 4⟩ : Venue).capacity < (2 : ℤ) ∨
        (fun (_ _ _ _ : ℚ) => (5:ℚ)) 40 (-70) 41 (-70) >
          (if ([20] : List ℚ) ≠ [] then ([20] : List ℚ).sum / ([20] : List ℚ).length else 10)) ∧
    (¬ (⟨7, 41, -70, "restaurant", "italian", 2, 4, 1 / 2, true, 4⟩ : Venue).capacity < (2 : ℤ) →
      ¬ (fun (_ _ _ _ : ℚ) => (5:ℚ)) 40 (-70) 41 (-70) >
          (if ([20] : List ℚ) ≠ [] then ([20] : List ℚ).sum / ([20] : List ℚ).length else 10) →
      calculateGroupVenueScore (fun _ _ _ _ => 5)
          ⟨7, 41, -70, "restaurant", "italian", 2, 4, 1 / 2, true, 4⟩
          40 (-70) ["italian", "italian"] [1] [4] [20] 2 =
        ((1 - (fun (_ _ _ _ : ℚ) => (5:ℚ)) 40 (-70) 41 (-70) /
            (if ([20] : List ℚ) ≠ [] then ([20] : List ℚ).sum / ([20] : List ℚ).length else 10)) +
         (if (if ([1] : List ℤ) ≠ [] then ((([1] : List ℤ).map (fun z => (z : ℚ))).sum) / ([1] : List ℤ).length else 1)
              ≤ ((⟨7, 41, -70, "restaurant", "italian", 2, 4, 1 / 2, true, 4⟩ : Venue).price_level : ℚ) ∧
            (((⟨7, 41, -70, "restaurant", "italian", 2, 4, 1 / 2, true, 4⟩ : Venue).price_level : ℚ)) ≤
              (if ([4] : List ℤ) ≠ [] then ((([4] : List ℤ).map (fun z => (z : ℚ))).sum) / ([4] : List ℤ).length else 4)
            then 1 else 3 / 10) +
         (if (⟨7, 41, -70, "restaurant", "italian", 2, 4, 1 / 2, true, 4⟩ : Venue).cuisine_type ∈ ["italian", "italian"]
            then (((["italian", "italian"] : List String).count
              (⟨7, 41, -70, "restaurant", "italian", 2, 4, 1 / 2, true, 4⟩ : Venue).cuisine_type : ℚ)) / 2
            else 3 / 10) +
         1 + (⟨7, 41, -70, "restaurant", "italian", 2, 4, 1 / 2, true, 4⟩ : Venue).rating / 5) / 5) :=
  claim_C7 (fun _ _ _ _ => 5) ⟨7, 41, -70, "restaurant", "italian", 2, 4, 1 / 2, true, 4⟩
    40 (-70) ["italian", "italian"] [1] [4] [20] 2
    (by norm_num) (by norm_num) (by intro m hm; simp at hm; simp [hm]) (by norm_num)

/-! ### LightGCN (`backend/app/ml_models/lightgcn.py`)

Embedding tables are node-indexed families of vectors `ℕ → Vec dim`
(`nn.Embedding(num_nodes, embedding_dim)` rows); a vector is `Fin dim → ℚ`.
The inverse square root `deg ** (-0.5)` of the clamped degree is the
oracle parameter `invSqrt` (its float value is irrational in general);
every theorem quantifies over it. -/

/-- Embedding vector of width `dim`. -/
abbrev Vec (dim : ℕ) : Type := Fin dim → ℚ

/-- Dot product (`torch.matmul` of two vectors). -/
def dotQ {dim : ℕ} (u v : Vec dim) : ℚ := ∑ j, u j * v j

/-- One `scatter_add_` of ones into a degree accumulator
(`deg.scatter_add_(0, idx, ones)`). -/
def scatterOnes (f : ℕ → ℚ) (idxs : List ℕ) : ℕ → ℚ :=
  idxs.foldl (fun g i => Function.update g i (g i + 1)) f

/-- Embedding of `LightGCN._propagate`.  Degrees count one increment per
endpoint per edge, are clamped to minimum `1`, the per-edge normalization
is `invSqrt deg_src * invSqrt deg_dst`, and `embeddings[col] * norm` rows
are scatter-added into the `row` (source) positions of a zero table. -/
def propagate {dim : ℕ} (invSqrt : ℚ → ℚ) (edges : List (ℕ × ℕ))
    (emb : ℕ → Vec dim) : ℕ → Vec dim :=
  let deg := scatterOnes (scatterOnes (fun _ => 0) (edges.map Prod.fst)) (edges.map Prod.snd)
  let dinv := fun i => invSqrt (max (deg i) 1)
  edges.foldl
    (fun t e => Function.update t e.1 (t e.1 + (dinv e.1 * dinv e.2) • emb e.2))
    (fun _ => 0)

/-- Modelled from the spec words of §4.2 step 2 for comparison with the
source: for every edge `(src, dst)` the quantity
`embedding[src] * invSqrtDeg[src] * invSqrtDeg[dst]` is accumulated into
the `dst` position. -/
def propagateSpec {dim : ℕ} (invSqrt : ℚ → ℚ) (edges : List (ℕ × ℕ))
    (emb : ℕ → Vec dim) : ℕ → Vec dim :=
  let deg := scatterOnes (scatterOnes (fun _ => 0) (edges.map Prod.fst)) (edges.map Prod.snd)
  let dinv := fun i => invSqrt (max (deg i) 1)
  edges.foldl
    (fun t e => Function.update t e.2 (t e.2 + (dinv e.1 * dinv e.2) • emb e.1))
    (fun _ => 0)

/-- Per-layer tables appended by the convolution loop of
`LightGCN.forward` (dropout is `0.0` throughout this code base: the
trainer never passes a dropout rate, so `F.dropout` is never applied). -/
def layerTables {dim : ℕ} (invSqrt : ℚ → ℚ) (edges : List (ℕ × ℕ)) :
    (ℕ → Vec dim) → ℕ → List (ℕ → Vec dim)
  | _, 0 => []
  | cur, n + 1 =>
    let nxt := propagate invSqrt edges cur
    nxt :: layerTables invSqrt edges nxt n

/-- Final table of `LightGCN.forward`: the elementwise mean of the initial
table and every per-layer table (`torch.stack(...).mean(dim=0)`). -/
def forwardFinal {dim : ℕ} (invSqrt : ℚ → ℚ) (edges : List (ℕ × ℕ))
    (emb0 : ℕ → Vec dim) (num_layers : ℕ) : ℕ → Vec dim :=
  let tables := emb0 :: layerTables invSqrt edges emb0 num_layers
  fun i => ((tables.length : ℚ)⁻¹) • (tables.map (fun t => t i)).sum

/-- Model state (`LightGCN.__init__`): node counts, depth and the raw
embedding table rows. -/
structure GModel (dim : ℕ) where
  num_users : ℕ
  num_venues : ℕ
  num_layers : ℕ
  emb0 : ℕ → Vec dim

/-- PyTorch integer tensor indexing over a table of `n` rows: indices in
`[0, n)` read directly, indices in `[-n, 0)` wrap, anything else raises
`IndexError`. -/
def torchIndex {α : Type} (f : ℕ → α) (n : ℕ) (i : ℤ) : Except Unit α :=
  if 0 ≤ i ∧ i < (n : ℤ) then Except.ok (f i.toNat)
  else if -(n : ℤ) ≤ i ∧ i < 0 then Except.ok (f (i + n).toNat)
  else Except.error ()

/-- Embedding of `LightGCN.predict`: reads the RAW embedding rows (no
propagation, as the source comments note), with no index validation
beyond raw tensor indexing — `user_emb = self.embedding.weight[user_idx]`
and `venue_embs = self.embedding.weight[self.num_users:][venue_indices]`,
then one dot product per venue. -/
def predictRaw {dim : ℕ} (m : GModel dim) (user_idx : ℤ)
    (venue_indices : List ℤ) : Except Unit (List ℚ) := do
  let user_emb ← torchIndex m.emb0 (m.num_users + m.num_venues) user_idx
  let venue_embs ← venue_indices.mapM
    (torchIndex (fun i => m.emb0 (m.num_users + i)) m.num_venues)
  pure (venue_embs.map (fun v => dotQ v user_emb))

/-- Trainer state visible to prediction (`GNNTrainer`): optional model,
optional edge index, optional metadata. -/
structure GMeta where
  num_users : ℕ
  num_venues : ℕ
  user_id_to_idx : List (ℤ × ℤ)
  venue_id_to_idx : List (ℤ × ℤ)

/-- Association-list lookup modelling a Python `dict.get`. -/
def alookup {α : Type} : List (ℤ × α) → ℤ → Option α
  | [], _ => none
  | p :: l, k => if p.1 = k then some p.2 else alookup l k

/-- Trainer state (`GNNTrainer.__init__` fields used by prediction). -/
structure Trainer (dim : ℕ) where
  model : Option (GModel dim)
  edge_index : Option (List (ℕ × ℕ))
  metadata : Option GMeta

/-- Validation failures of `GNNTrainer.predict_user_venue_scores`. -/
inductive PredictErr where
  | noModel
  | noEdgeIndex
  | badUserIdx
  | badVenueIdx
  deriving DecidableEq

/-- Embedding of `GNNTrainer.predict_user_venue_scores`: explicit
`ValueError` checks for a missing model, a missing edge index, a user
index outside `[0, num_users)` and any venue index outside
`[0, num_venues)`; then one forward pass and one dot product per venue
(`torch.matmul(venue_embeddings, user_embeddings[0])`). -/
def predictScores {dim : ℕ} (invSqrt : ℚ → ℚ) (tr : Trainer dim)
    (user_idx : ℤ) (venue_indices : List ℤ) : Except PredictErr (List ℚ) :=
  match tr.model with
  | none => Except.error PredictErr.noModel
  | some m =>
    match tr.edge_index with
    | none => Except.error PredictErr.noEdgeIndex
    | some edges =>
      if user_idx < 0 ∨ (m.num_users : ℤ) ≤ user_idx then
        Except.error PredictErr.badUserIdx
      else if venue_indices.any (fun v => v < 0 ∨ (m.num_venues : ℤ) ≤ v) then
        Except.error PredictErr.badVenueIdx
      else
        let final := forwardFinal invSqrt edges m.emb0 m.num_layers
        let user_emb := final user_idx.toNat
        Except.ok (venue_indices.map
          (fun v => dotQ (final (m.num_users + v.toNat)) user_emb))

/-- Pointwise value of one scatter-add of ones: the old value plus the
number of occurrences of the index. -/
lemma scatterOnes_apply (l : List ℕ) :
    ∀ (f : ℕ → ℚ) (i : ℕ), scatterOnes f l i = f i + l.count i := by
  induction l with
  | nil => intro f i; simp [scatterOnes]
  | cons j l ih =>
    intro f i
    show scatterOnes (Function.update f j (f j + 1)) l i = _
    rw [ih]
    by_cases h : i = j
    · subst h
      simp only [Function.update_same, List.count_cons, beq_self_eq_true, if_true]
      push_cast
      ring
    · simp only [Function.update_noteq h, List.count_cons, beq_iff_eq]
      rw [if_neg (fun hh => h hh.symm)]
      push_cast
      ring

/-- Pointwise value of the scatter-add fold used by `_propagate`: the
initial row plus the sum of the contributions of the edges whose source
is the queried node. -/
lemma foldl_update_apply {dim : ℕ} (g : ℕ × ℕ → Vec dim) :
    ∀ (E : List (ℕ × ℕ)) (t0 : ℕ → Vec dim) (i : ℕ),
      (E.foldl (fun (t : ℕ → Vec dim) (e : ℕ × ℕ) =>
          Function.update t e.1 (t e.1 + g e)) t0) i =
        t0 i + ((E.filter (fun e => e.1 = i)).map g).sum := by
  intro E
  induction E with
  | nil => intro t0 i; simp
  | cons e E ih =>
    intro t0 i
    rw [List.foldl_cons, ih]
    by_cases h : e.1 = i
    · rw [List.filter_cons_of_pos (by simpa using h), List.map_cons, List.sum_cons]
      subst h
      rw [Function.update_same]
      exact add_assoc _ _ _
    · rw [List.filter_cons_of_neg (by simpa using h),
        Function.update_noteq (Ne.symm h)]

/-- The per-layer table list is the list of iterates of the propagation
step. -/
lemma layerTables_eq {dim : ℕ} (invSqrt : ℚ → ℚ) (edges : List (ℕ × ℕ)) :
    ∀ (n : ℕ) (x : ℕ → Vec dim),
      layerTables invSqrt edges x n =
        (List.range n).map (fun k => (propagate invSqrt edges)^[k + 1] x) := by
  intro n
  induction n with
  | zero => intro x; simp [layerTables]
  | succ n ih =>
    intro x
    rw [layerTables, ih, List.range_succ_eq_map, List.map_cons, List.map_map]
    have hfun : ((fun k => (propagate invSqrt edges)^[k + 1] x) ∘ Nat.succ) =
        fun k => (propagate invSqrt edges)^[k + 1] (propagate invSqrt edges x) := by
      funext k
      simp [Function.comp, Function.iterate_succ_apply]
    rw [hfun]
    simp [Function.iterate_one]

/-- C2 (amended).  In each propagation round the working table is
replaced so that, for every edge `(src, dst)`, the quantity
`embedding[dst] * invSqrtDeg[src] * invSqrtDeg[dst]` is accumulated into
the new value of `src` — the transposed direction of the claim as stated
— with degrees counted as one increment per endpoint per edge and
clamped to minimum `1`; and the final representation is the elementwise
mean of the initial table and every per-layer table. -/
theorem claim_C2 {dim : ℕ} (invSqrt : ℚ → ℚ) (edges : List (ℕ × ℕ))
    (emb : ℕ → Vec dim) (num_layers : ℕ) (i : ℕ) :
    (scatterOnes (scatterOnes (fun _ => 0) (edges.map Prod.fst))
        (edges.map Prod.snd) i =
      ((edges.map Prod.fst).count i : ℚ) + ((edges.map Prod.snd).count i : ℚ)) ∧
    (propagate invSqrt edges emb i =
      ((edges.filter (fun e => e.1 = i)).map
        (fun e =>
          (invSqrt (max (scatterOnes (scatterOnes (fun _ => 0)
              (edges.map Prod.fst)) (edges.map Prod.snd) e.1) 1) *
           invSqrt (max (scatterOnes (scatterOnes (fun _ => 0)
              (edges.map Prod.fst)) (edges.map Prod.snd) e.2) 1)) • emb e.2)).sum) ∧
    (forwardFinal invSqrt edges emb num_layers i =
      ((num_layers : ℚ) + 1)⁻¹ •
        ((List.range (num_layers + 1)).map
          (fun k => (propagate invSqrt edges)^[k] emb i)).sum) := by
  refine ⟨?_, ?_, ?_⟩
  · rw [scatterOnes_apply, scatterOnes_apply]
    ring
  · simp only [propagate]
    rw [foldl_update_apply
      (fun e : ℕ × ℕ =>
        (invSqrt (max (scatterOnes (scatterOnes (fun _ => 0)
            (edges.map Prod.fst)) (edges.map Prod.snd) e.1) 1) *
         invSqrt (max (scatterOnes (scatterOnes (fun _ => 0)
            (edges.map Prod.fst)) (edges.map Prod.snd) e.2) 1)) • emb e.2)]
    simp
  · simp only [forwardFinal, layerTables_eq]
    rw [List.range_succ_eq_map]
    simp only [List.map_cons, List.map_map, List.sum_cons, List.length_cons,
      List.length_map, List.length_range, Function.comp,
      Function.iterate_zero, id_eq, Function.iterate_succ_apply]
    have hfe : ((fun (t : ℕ → Vec dim) => t i) ∘
        fun k => (propagate invSqrt edges)^[k] (propagate invSqrt edges emb)) =
        ((fun k => (propagate invSqrt edges)^[k] emb i) ∘ Nat.succ) := by
      funext k
      simp [Function.comp, Function.iterate_succ_apply]
    rw [hfe]
    push_cast
    ring_nf

/-- C2 counterexample to the claim as stated: on the single directed edge
`(0, 1)` (both endpoint degrees are `1`, whose true inverse square root
is exactly `1`, matching the oracle `fun _ => 1`), the source accumulates
`embedding[1]` into node `0`, whereas the claimed rule accumulates
`embedding[0]` into node `1` and leaves node `0` at zero. -/
theorem claim_C2_cex :
    (propagate (fun _ => 1) [(0, 1)]
        (fun i => ((fun _ => if i = 1 then 7 else 5) : Vec 1)) 0) 0 = 7 ∧
    (propagateSpec (fun _ => 1) [(0, 1)]
        (fun i => ((fun _ => if i = 1 then 7 else 5) : Vec 1)) 0) 0 = 0 := by
  constructor
  · simp [propagate, scatterOnes, Function.update, Pi.smul_apply]
  · simp [propagateSpec, scatterOnes, Function.update, Pi.smul_apply]

/-- C3 (amended).  `GNNTrainer.predict_user_venue_scores` (with a model
and an edge index loaded) returns exactly one score per requested venue
when the user index lies in `[0, num_users)` and every venue index lies
in `[0, num_venues)`; a user index outside its range raises the
out-of-range `ValueError`, and any venue index outside its range raises
an out-of-range `ValueError` — whereas `LightGCN.predict` itself
performs no such validation (see the counterexample). -/
theorem claim_C3 {dim : ℕ} (invSqrt : ℚ → ℚ) (tr : Trainer dim)
    (m : GModel dim) (E : List (ℕ × ℕ))
    (hm : tr.model = some m) (he : tr.edge_index = some E) :
    (∀ (u : ℤ) (vs : List ℤ), 0 ≤ u → u < (m.num_users : ℤ) →
      (∀ v ∈ vs, 0 ≤ v ∧ v < (m.num_venues : ℤ)) →
      ∃ s, predictScores invSqrt tr u vs = Except.ok s ∧ s.length = vs.length) ∧
    (∀ (u : ℤ) (vs : List ℤ), u < 0 ∨ (m.num_users : ℤ) ≤ u →
      predictScores invSqrt tr u vs = Except.error PredictErr.badUserIdx) ∧
    (∀ (u : ℤ) (vs : List ℤ) (v : ℤ), v ∈ vs →
      v < 0 ∨ (m.num_venues : ℤ) ≤ v →
      ∃ err, predictScores invSqrt tr u vs = Except.error err) := by
  refine ⟨?_, ?_, ?_⟩
  · intro u vs hu0 hun hvs
    refine ⟨(vs.map (fun v => dotQ
      (forwardFinal invSqrt E m.emb0 m.num_layers (m.num_users + v.toNat))
      (forwardFinal invSqrt E m.emb0 m.num_layers u.toNat))), ?_, by simp⟩
    have hcond : ¬ (u < 0 ∨ (m.num_users : ℤ) ≤ u) := by
      push_neg
      exact ⟨hu0, hun⟩
    have hany : vs.any (fun v => decide (v < 0 ∨ (m.num_venues : ℤ) ≤ v)) = false := by
      rw [List.any_eq_false]
      intro v hv
      simp only [decide_eq_true_eq]
      push_neg
      exact ⟨(hvs v hv).1, (hvs v hv).2⟩
    simp [predictScores, hm, he, hcond, hany]
    exact hvs
  · intro u vs hu
    simp [predictScores, hm, he, hu]
  · intro u vs v hv hbad
    by_cases hu : u < 0 ∨ (m.num_users : ℤ) ≤ u
    · exact ⟨PredictErr.badUserIdx, by simp [predictScores, hm, he, hu]⟩
    · refine ⟨PredictErr.badVenueIdx, ?_⟩
      have hany : vs.any (fun w => decide (w < 0 ∨ (m.num_venues : ℤ) ≤ w)) = true := by
        rw [List.any_eq_true]
        exact ⟨v, hv, by simpa using hbad⟩
      simp [predictScores, hm, he, hu, hany]
      exact ⟨v, hv, fun h0 => hbad.elim (fun h => absurd h0 (not_le.mpr h)) id⟩

/-- C3 witness: a one-user one-venue trained state; the in-range request
`(0, [0])` yields exactly one score. -/
theorem claim_C3_witness :
    ∃ s, predictScores (fun _ => 1)
        (⟨some ⟨1, 1, 1, fun i => fun _ => (i : ℚ)⟩, some [], none⟩ : Trainer 1) 0 [0] =
      Except.ok s ∧ s.length = [(0 : ℤ)].length :=
  (claim_C3 (fun _ => 1)
      (⟨some ⟨1, 1, 1, fun i => fun _ => (i : ℚ)⟩, some [], none⟩ : Trainer 1)
      ⟨1, 1, 1, fun i => fun _ => (i : ℚ)⟩ [] rfl rfl).1 0 [0]
    (by norm_num) (by norm_num)
    (by intro v hv; simp at hv; simp [hv])

/-- C3 counterexample to the claim as stated about `LightGCN.predict`:
with one user and one venue the user index `1` is outside
`[0, num_users) = [0, 1)`, yet `predict` silently reads the venue row of
the raw embedding table (`self.embedding.weight[1]`) and returns a score
instead of failing. -/
theorem claim_C3_cex :
    predictRaw (⟨1, 1, 1, fun i => fun _ => (i : ℚ)⟩ : GModel 1) 1 [0] =
      Except.ok [1] ∧
    ¬ ((1 : ℤ) < ((⟨1, 1, 1, fun i => fun _ => (i : ℚ)⟩ : GModel 1).num_users : ℤ)) := by
  constructor
  · simp [predictRaw, torchIndex, dotQ, Fin.sum_univ_one, List.mapM.loop,
      Except.map, bind, Except.bind, pure, Except.pure]
  · norm_num

/-! ### GNNTrainer.train (`backend/app/services/gnn_trainer.py`)

The training loop is modelled by its control flow: per-epoch shuffling
and the numeric loss values influence neither branching nor the claims,
so the model records the trace of effectful events (optimizer steps and
model persistence) together with the outcome.  The negative venue
samples drawn by `torch.randint` are the oracle list `negs`. -/

/-- Effectful events of a training run. -/
inductive TrainStep where
  | optStep
  | saveModel
  deriving DecidableEq

/-- Failures of a training run: the two `ValueError` configuration
checks and the `assert` in `_prepare_training_pairs`. -/
inductive TrainErr where
  | noEdges
  | noPositivePairs
  | assertViolation
  deriving DecidableEq

/-- Successful outcome summary. -/
structure TrainOk where
  num_positive : ℕ
  deriving DecidableEq

/-- Embedding of `GNNTrainer._prepare_training_pairs`: keep the
user-to-venue edges (`edge_index[0] < num_users` and
`edge_index[1] >= num_users`), return empty pair tensors when none
remain, assert the derived indices are in range, and zip positives with
the sampled negative venue indices. -/
def prepareTrainingPairs (edge_index : List (ℕ × ℕ))
    (num_users num_venues : ℕ) (negs : List ℕ) :
    Except Unit (List (ℕ × ℕ) × List (ℕ × ℕ)) :=
  let user_venue_edges := edge_index.filter
    (fun e => e.1 < num_users ∧ num_users ≤ e.2)
  if user_venue_edges = [] then Except.ok ([], [])
  else
    let user_indices := user_venue_edges.map Prod.fst
    let venue_indices := user_venue_edges.map (fun e => e.2 - num_users)
    if user_indices.all (fun u => u < num_users) &&
        venue_indices.all (fun v => v < num_venues) then
      Except.ok (user_indices.zip venue_indices, user_indices.zip negs)
    else Except.error ()

/-- Embedding of the control flow of `GNNTrainer.train`: fail fast on a
zero-edge graph, prepare pairs, fail fast on zero positive pairs, then
run `epochs * num_batches` optimizer steps and persist the model if
requested. -/
def train (edges : List (ℕ × ℕ)) (num_users num_venues : ℕ)
    (negs : List ℕ) (epochs batch_size : ℕ) (save_model : Bool) :
    List TrainStep × Except TrainErr TrainOk :=
  if edges.length = 0 then ([], Except.error TrainErr.noEdges)
  else
    match prepareTrainingPairs edges num_users num_venues negs with
    | Except.error _ => ([], Except.error TrainErr.assertViolation)
    | Except.ok (positive_pairs, _) =>
      if positive_pairs.length = 0 then ([], Except.error TrainErr.noPositivePairs)
      else
        let num_batches := (positive_pairs.length + batch_size - 1) / batch_size
        (List.replicate (epochs * num_batches) TrainStep.optStep ++
          (if save_model then [TrainStep.saveModel] else []),
         Except.ok ⟨positive_pairs.length⟩)

/-- C5 (confirmed).  A zero-edge graph fails with the no-edges
configuration error, a nonempty graph whose derived positive-pair set is
empty fails with the no-positive-pairs configuration error — in both
cases with an empty effect trace, so before any optimizer step and
without persisting any artifact — and a successful run implies at least
one positive pair was derived. -/
theorem claim_C5 (edges : List (ℕ × ℕ)) (num_users num_venues : ℕ)
    (negs : List ℕ) (epochs batch_size : ℕ) (save_model : Bool) :
    (edges = [] →
      train edges num_users num_venues negs epochs batch_size save_model =
        ([], Except.error TrainErr.noEdges)) ∧
    (∀ ps ns, prepareTrainingPairs edges num_users num_venues negs = Except.ok (ps, ns) →
      ps = [] → edges ≠ [] →
      train edges num_users num_venues negs epochs batch_size save_model =
        ([], Except.error TrainErr.noPositivePairs)) ∧
    (∀ s, (train edges num_users num_venues negs epochs batch_size save_model).2 =
        Except.ok s →
      ∃ ps ns, prepareTrainingPairs edges num_users num_venues negs =
        Except.ok (ps, ns) ∧ ps ≠ []) := by
  refine ⟨?_, ?_, ?_⟩
  · intro h
    subst h
    simp [train]
  · intro ps ns hprep hps hne
    have hlen : ¬ edges.length = 0 := fun h => hne (List.length_eq_zero.1 h)
    simp [train, hlen, hprep, hps]
  · intro s hs
    by_cases h0 : edges.length = 0
    · simp [train, h0] at hs
    · rcases hp : prepareTrainingPairs edges num_users num_venues negs with e | pr
      · simp [train, h0, hp] at hs
      · obtain ⟨ps, ns⟩ := pr
        by_cases hpl : ps.length = 0
        · simp [train, h0, hp, hpl] at hs
        · exact ⟨ps, ns, rfl, fun hnil => hpl (by simp [hnil])⟩

/-- C5 witness: a graph whose single edge is a user-to-user friendship
edge (`num_users = 2`) yields zero positive pairs, and training fails
fast with an empty effect trace. -/
theorem claim_C5_witness :
    train [(0, 1)] 2 0 [] 100 2048 true = ([], Except.error TrainErr.noPositivePairs) :=
  (claim_C5 [(0, 1)] 2 0 [] 100 2048 true).2.1 [] [] (by rfl) rfl (by simp)

/-! ### RecommendationEngine pipelines (`recommendation.py`) -/

/-- Embedding of `RecommendationEngine._get_gnn_score`: the guarded
fallback chain of the source, returning the neutral `0.5` on a missing
model, missing edge index, missing metadata, empty ID mappings, an
unmapped user or venue, an invalid or out-of-bounds venue graph index,
any prediction failure (every exception is caught), and the
`scores[0]` read of an empty result; otherwise the sigmoid of the
affinity clamped to `[0, 1]`. -/
def getGnnScore {dim : ℕ} (sig invSqrt : ℚ → ℚ) (tr : Trainer dim)
    (user_id venue_id : ℤ) : ℚ :=
  match tr.model with
  | none => 1 / 2
  | some _ =>
    match tr.edge_index with
    | none => 1 / 2
    | some _ =>
      match tr.metadata with
      | none => 1 / 2
      | some md =>
        if md.user_id_to_idx = [] ∨ md.venue_id_to_idx = [] then 1 / 2
        else
          match alookup md.user_id_to_idx user_id with
          | none => 1 / 2
          | some user_idx =>
            match alookup md.venue_id_to_idx venue_id with
            | none => 1 / 2
            | some venue_idx =>
              if venue_idx < (md.num_users : ℤ) then 1 / 2
              else
                let venue_graph_idx := venue_idx - md.num_users
                if venue_graph_idx < 0 ∨ (md.num_venues : ℤ) ≤ venue_graph_idx then 1 / 2
                else
                  match predictScores invSqrt tr user_idx [venue_graph_idx] with
                  | Except.error _ => 1 / 2
                  | Except.ok [] => 1 / 2
                  | Except.ok (s :: _) => max 0 (min 1 (sig s))

/-- Per-venue hybrid scoring of `get_venue_recommendations` (lines
104-122): the rule-based score, blended `0.7 / 0.3` with the GNN score
whenever a trainer with a loaded model is attached (in which case
`_get_gnn_score` always returns a value — it never raises). -/
def perVenueFinal {dim : ℕ} (sig invSqrt : ℚ → ℚ) (hav : ℚ → ℚ → ℚ → ℚ → ℚ)
    (trainer : Option (Trainer dim)) (user : UserRow)
    (preferences : Option Prefs) (venue : Venue) : ℚ :=
  let rule_score := calculateVenueScore hav user preferences venue
  match trainer with
  | none => rule_score
  | some tr =>
    match tr.model with
    | none => rule_score
    | some _ =>
      7 / 10 * rule_score + 3 / 10 * getGnnScore sig invSqrt tr user.id venue.id

/-- Database snapshot consumed by the recommendation pipelines; an
interest row is `(user_id, venue_id, explicitly_interested)`. -/
structure RecDb where
  users : List UserRow
  venues : List Venue
  prefs : List (ℤ × Prefs)
  friendships : List (ℤ × ℤ)
  interests : List (ℤ × ℤ × Bool)

/-- First user row with the requested id (`scalar_one_or_none`). -/
def findUser (db : RecDb) (uid : ℤ) : Option UserRow :=
  db.users.find? (fun u => decide (u.id = uid))

/-- Descending stable sort by a rational key
(`.sort(key=..., reverse=True)`). -/
def sortDesc {α : Type} (key : α → ℚ) (l : List α) : List α :=
  l.insertionSort (fun a b => key b ≤ key a)

/-- Ranked-list entry exposed by `get_venue_recommendations`. -/
structure RecOut where
  id : ℤ
  score : ℚ
  rule_score : ℚ
  deriving DecidableEq

/-- Loop body of `get_venue_recommendations` for one venue: kept only
when the final score is strictly positive. -/
def recEntry {dim : ℕ} (sig invSqrt : ℚ → ℚ) (hav : ℚ → ℚ → ℚ → ℚ → ℚ)
    (trainer : Option (Trainer dim)) (user : UserRow)
    (preferences : Option Prefs) (venue : Venue) : Option RecOut :=
  let rule_score := calculateVenueScore hav user preferences venue
  let final_score := perVenueFinal sig invSqrt hav trainer user preferences venue
  if 0 < final_score then some ⟨venue.id, final_score, rule_score⟩ else none

/-- Embedding of `get_venue_recommendations`: find the user and the
preference row, apply the optional category and min-rating filters,
score every venue, keep strictly positive final scores, sort descending
and truncate.  (A category filter of `""` and a min-rating of `0` are
falsy in the source and are modelled as an absent filter.) -/
def venueRecommendations {dim : ℕ} (sig invSqrt : ℚ → ℚ)
    (hav : ℚ → ℚ → ℚ → ℚ → ℚ) (trainer : Option (Trainer dim)) (db : RecDb)
    (user_id : ℤ) (limit : ℕ) (category_filter : Option String)
    (min_rating : Option ℚ) : List RecOut :=
  match findUser db user_id with
  | none => []
  | some user =>
    let preferences := alookup db.prefs user_id
    let venues := db.venues.filter (fun v =>
      (match category_filter with
       | some c => decide (v.category = c)
       | none => true) &&
      (match min_rating with
       | some r => decide (r ≤ v.rating)
       | none => true))
    let scored := venues.filterMap (recEntry sig invSqrt hav trainer user preferences)
    (sortDesc (fun r => r.score) scored).take limit

/-- Friend ids of a user (`Friendship.friend_id where user_id = ...`). -/
def friendIdsOf (db : RecDb) (uid : ℤ) : List ℤ :=
  (db.friendships.filter (fun f => decide (f.1 = uid))).map Prod.snd

/-- Mutual-friend count of a candidate (`Friendship.user_id = candidate
and Friendship.friend_id in my_friends`). -/
def mutualCount (db : RecDb) (friend_ids : List ℤ) (other_id : ℤ) : ℕ :=
  (db.friendships.filter
    (fun f => decide (f.1 = other_id) && decide (f.2 ∈ friend_ids))).length

/-- Whether the candidate explicitly expressed interest in the target
venue (queried only when `venue_id` is truthy). -/
def sharedInterest (db : RecDb) (venue_id : Option ℤ) (other_id : ℤ) : Bool :=
  match venue_id with
  | some v =>
    if v ≠ 0 then
      db.interests.any (fun r => decide (r.2.1 = v) && decide (r.1 = other_id) && r.2.2)
    else false
  | none => false

/-- Result entry exposed by `get_compatible_users`. -/
structure CompatOut where
  id : ℤ
  compatibility_score : ℚ
  deriving DecidableEq

/-- Loop body of `get_compatible_users` for one candidate: skipped when
a preference row exists and marks the candidate as not open to new
people; otherwise scored (a candidate without a preference row passes
`open_to_new = True` into scoring). -/
def compatEntry (db : RecDb) (user : UserRow) (friend_ids : List ℤ)
    (venue_id : Option ℤ) (user_id : ℤ) (other_user : UserRow) :
    Option (UserRow × ℚ) :=
  match alookup db.prefs other_user.id with
  | some p =>
    if ¬ p.open_to_new_people then none
    else some (other_user,
      compatibilityScore user other_user friend_ids venue_id
        (mutualCount db friend_ids other_user.id)
        (alookup db.prefs user_id) (some p)
        (sharedInterest db venue_id other_user.id) p.open_to_new_people)
  | none =>
    some (other_user,
      compatibilityScore user other_user friend_ids venue_id
        (mutualCount db friend_ids other_user.id)
        (alookup db.prefs user_id) none
        (sharedInterest db venue_id other_user.id) true)

/-- Embedding of `get_compatible_users`: the candidate pool excludes the
requester and the requester's direct friends up front (with the source's
candidate-limit and expansion logic), candidates not open to new people
are skipped, survivors are thresholded, sorted descending and
truncated. -/
def getCompatibleUsers (db : RecDb) (user_id : ℤ) (venue_id : Option ℤ)
    (limit : ℕ) : List CompatOut :=
  match findUser db user_id with
  | none => []
  | some user =>
    let friend_ids := friendIdsOf db user_id
    let excluded_ids := user_id :: friend_ids
    let candidate_limit := min (limit * 10) 50
    let pool := db.users.filter (fun u => decide (u.id ∉ excluded_ids))
    let other_users0 := pool.take candidate_limit
    let other_users :=
      if other_users0.length < limit ∧ excluded_ids.length < 50 then pool.take 100
      else other_users0
    if other_users = [] then []
    else
      let scored := other_users.filterMap
        (compatEntry db user friend_ids venue_id user_id)
      let kept := scored.filter (fun su => decide (compatibilityThreshold ≤ su.2))
      ((sortDesc (fun su => su.2) kept).take limit).map
        (fun su => ⟨su.1.id, su.2⟩)

/-- Result entry exposed by `find_optimal_venue_for_group`. -/
structure GroupOut where
  id : ℤ
  group_score : ℚ
  deriving DecidableEq

/-- Loop body of `find_optimal_venue_for_group` for one venue: kept only
when the group score is strictly positive. -/
def groupEntry (hav : ℚ → ℚ → ℚ → ℚ → ℚ) (centroid_lat centroid_lon : ℚ)
    (all_cuisines : List String) (min_prices max_prices : List ℤ)
    (max_distances : List ℚ) (group_size : ℕ) (venue : Venue) :
    Option GroupOut :=
  let score := calculateGroupVenueScore hav venue centroid_lat centroid_lon
    all_cuisines min_prices max_prices max_distances group_size
  if 0 < score then some ⟨venue.id, score⟩ else none

/-- Embedding of `find_optimal_venue_for_group`: empty input returns an
empty result; the centroid is the mean of the truthy coordinates (with
the New York fallback), preferences are aggregated over the members that
have a preference row, the `cos`-based bounding box and the capacity
requirement pre-filter the venues, and the survivors with strictly
positive group score are sorted descending and truncated to ten. -/
def findOptimalVenueForGroup (hav : ℚ → ℚ → ℚ → ℚ → ℚ) (cosQ : ℚ → ℚ)
    (db : RecDb) (user_ids : List ℤ) : List GroupOut :=
  if user_ids = [] then []
  else
    let user_data := (db.users.filter (fun u => decide (u.id ∈ user_ids))).map
      (fun u => (u, alookup db.prefs u.id))
    if user_data = [] then []
    else
      let lats := user_data.filterMap (fun ud =>
        match ud.1.latitude with
        | some a => if a ≠ 0 then some a else none
        | none => none)
      let lons := user_data.filterMap (fun ud =>
        match ud.1.longitude with
        | some a => if a ≠ 0 then some a else none
        | none => none)
      let centroid_lat : ℚ :=
        if lats ≠ [] then lats.sum / lats.length else 407128 / 10000
      let centroid_lon : ℚ :=
        if lons ≠ [] then lons.sum / lons.length else -740060 / 10000
      let all_cuisines := user_data.flatMap (fun ud =>
        match ud.2 with
        | some p => p.cuisine_preferences
        | none => [])
      let min_prices := user_data.filterMap (fun ud => ud.2.map (fun p => p.min_price_level))
      let max_prices := user_data.filterMap (fun ud => ud.2.map (fun p => p.max_price_level))
      let max_distances := user_data.filterMap (fun ud => ud.2.map (fun p => p.max_distance))
      let avg_max_distance : ℚ :=
        if max_distances ≠ [] then max_distances.sum / max_distances.length else 10
      let lat_delta := avg_max_distance / 111
      let cos_lat := cosQ centroid_lat
      let lon_delta : ℚ :=
        if |cos_lat| > 1 / 10000 then avg_max_distance / (111 * cos_lat) else 180
      let venues := db.venues.filter (fun v =>
        decide ((user_ids.length : ℤ) ≤ v.capacity) &&
        decide (centroid_lat - lat_delta ≤ v.latitude) &&
        decide (v.latitude ≤ centroid_lat + lat_delta) &&
        decide (centroid_lon - |lon_delta| ≤ v.longitude) &&
        decide (v.longitude ≤ centroid_lon + |lon_delta|))
      let scored := venues.filterMap (groupEntry hav centroid_lat centroid_lon
        all_cuisines min_prices max_prices max_distances user_ids.length)
      (sortDesc (fun g => g.group_score) scored).take 10

/-- Success path of `_get_gnn_score`: with a loaded model and metadata,
nonempty mappings, a mapped user and venue, a valid in-bounds venue
graph index and a successful prediction, the returned value is the
clamped sigmoid of the first score. -/
lemma getGnnScore_success {dim : ℕ} (sig invSqrt : ℚ → ℚ) (tr : Trainer dim)
    (m : GModel dim) (md : GMeta) (ui vi : ℤ) (s : ℚ) (rest : List ℚ)
    (uid vid : ℤ) (hm : tr.model = some m) (hmd : tr.metadata = some md)
    (hU : md.user_id_to_idx ≠ []) (hV : md.venue_id_to_idx ≠ [])
    (hu : alookup md.user_id_to_idx uid = some ui)
    (hv : alookup md.venue_id_to_idx vid = some vi)
    (h1 : ¬ vi < (md.num_users : ℤ))
    (h2 : ¬ (vi - md.num_users < 0 ∨ (md.num_venues : ℤ) ≤ vi - md.num_users))
    (hp : predictScores invSqrt tr ui [vi - md.num_users] = Except.ok (s :: rest)) :
    getGnnScore sig invSqrt tr uid vid = max 0 (min 1 (sig s)) := by
  rcases hE : tr.edge_index with _ | E
  · rw [predictScores, hm, hE] at hp
    cases hp
  · have hne : ¬ (md.user_id_to_idx = [] ∨ md.venue_id_to_idx = []) := by
      simp [hU, hV]
    simp only [getGnnScore, hm, hE, hmd, if_neg hne, hu, hv, if_neg h1, if_neg h2, hp]

/-- C1 (amended).  Per candidate venue: with no trainer or no loaded
model the final score is exactly the rule-based score; with a loaded
model and a fully mapped user and venue the final score is
`0.7 * ruleScore + 0.3 * clamp(sigmoid(affinity))`; and in every
degraded situation — missing edge index or metadata, empty mappings, an
unmapped (cold-start) user or venue, an invalid or out-of-bounds venue
index, or a prediction failure — `_get_gnn_score` returns the neutral
placeholder `0.5` (never raising), so the final score is
`0.7 * ruleScore + 0.15`, not the rule score alone. -/
theorem claim_C1 {dim : ℕ} (sig invSqrt : ℚ → ℚ) (hav : ℚ → ℚ → ℚ → ℚ → ℚ)
    (trainer : Option (Trainer dim)) (user : UserRow)
    (preferences : Option Prefs) (venue : Venue) :
    (trainer = none →
      perVenueFinal sig invSqrt hav trainer user preferences venue =
        calculateVenueScore hav user preferences venue) ∧
    (∀ tr, trainer = some tr → tr.model = none →
      perVenueFinal sig invSqrt hav trainer user preferences venue =
        calculateVenueScore hav user preferences venue) ∧
    (∀ tr m md ui vi s rest, trainer = some tr → tr.model = some m →
      tr.metadata = some md →
      md.user_id_to_idx ≠ [] → md.venue_id_to_idx ≠ [] →
      alookup md.user_id_to_idx user.id = some ui →
      alookup md.venue_id_to_idx venue.id = some vi →
      ¬ vi < (md.num_users : ℤ) →
      ¬ (vi - md.num_users < 0 ∨ (md.num_venues : ℤ) ≤ vi - md.num_users) →
      predictScores invSqrt tr ui [vi - md.num_users] = Except.ok (s :: rest) →
      perVenueFinal sig invSqrt hav trainer user preferences venue =
        7 / 10 * calculateVenueScore hav user preferences venue +
          3 / 10 * max 0 (min 1 (sig s))) ∧
    (∀ tr m, trainer = some tr → tr.model = some m →
      getGnnScore sig invSqrt tr user.id venue.id = 1 / 2 →
      perVenueFinal sig invSqrt hav trainer user preferences venue =
        7 / 10 * calculateVenueScore hav user preferences venue + 3 / 20) ∧
    (∀ tr m, trainer = some tr → tr.model = some m →
      (tr.edge_index = none ∨ tr.metadata = none ∨
        (∃ md, tr.metadata = some md ∧
          (md.user_id_to_idx = [] ∨ md.venue_id_to_idx = [] ∨
           alookup md.user_id_to_idx user.id = none ∨
           alookup md.venue_id_to_idx venue.id = none))) →
      getGnnScore sig invSqrt tr user.id venue.id = 1 / 2) ∧
    (∀ tr m md ui vi, trainer = some tr → tr.model = some m →
      tr.metadata = some md →
      alookup md.user_id_to_idx user.id = some ui →
      alookup md.venue_id_to_idx venue.id = some vi →
      (vi < (md.num_users : ℤ) ∨ (md.num_venues : ℤ) ≤ vi - md.num_users ∨
       predictScores invSqrt tr ui [vi - md.num_users] =
         Except.error PredictErr.badUserIdx ∨
       predictScores invSqrt tr ui [vi - md.num_users] = Except.ok []) →
      getGnnScore sig invSqrt tr user.id venue.id = 1 / 2) := by
  refine ⟨?_, ?_, ?_, ?_, ?_, ?_⟩
  · intro h
    subst h
    rfl
  · intro tr htr hm
    subst htr
    simp [perVenueFinal, hm]
  · intro tr m md ui vi s rest htr hm hmd hU hV hu hv h1 h2 hp
    subst htr
    rw [perVenueFinal]
    simp only [hm]
    rw [getGnnScore_success sig invSqrt tr m md ui vi s rest user.id venue.id
      hm hmd hU hV hu hv h1 h2 hp]
  · intro tr m htr hm hg
    subst htr
    rw [perVenueFinal]
    simp only [hm, hg]
    ring
  · intro tr m htr hm hc
    subst htr
    rcases hc with hE | hmd | ⟨md, hmd, hc⟩
    · simp [getGnnScore, hm, hE]
    · rcases hE : tr.edge_index with _ | E <;> simp [getGnnScore, hm, hE, hmd]
    · rcases hE : tr.edge_index with _ | E
      · simp [getGnnScore, hm, hE]
      · rcases hc with h | h | h | h
        · simp [getGnnScore, hm, hE, hmd, h]
        · simp [getGnnScore, hm, hE, hmd, h]
        · by_cases hVe : md.user_id_to_idx = [] ∨ md.venue_id_to_idx = []
          · simp [getGnnScore, hm, hE, hmd, hVe]
          · simp [getGnnScore, hm, hE, hmd, hVe, h]
        · by_cases hVe : md.user_id_to_idx = [] ∨ md.venue_id_to_idx = []
          · simp [getGnnScore, hm, hE, hmd, hVe]
          · rcases hu : alookup md.user_id_to_idx user.id with _ | ui
            · simp [getGnnScore, hm, hE, hmd, hVe, hu]
            · simp [getGnnScore, hm, hE, hmd, hVe, hu, h]
  · intro tr m md ui vi htr hm hmd hu hv hc
    subst htr
    rcases hE : tr.edge_index with _ | E
    · simp [getGnnScore, hm, hE]
    · by_cases hVe : md.user_id_to_idx = [] ∨ md.venue_id_to_idx = []
      · simp [getGnnScore, hm, hE, hmd, hVe]
      · have base : getGnnScore sig invSqrt tr user.id venue.id =
            (if vi < (md.num_users : ℤ) then 1 / 2
             else if vi - md.num_users < 0 ∨ (md.num_venues : ℤ) ≤ vi - md.num_users
               then 1 / 2
             else match predictScores invSqrt tr ui [vi - md.num_users] with
               | Except.error _ => 1 / 2
               | Except.ok [] => 1 / 2
               | Except.ok (s :: _) => max 0 (min 1 (sig s))) := by
          simp only [getGnnScore, hm, hE, hmd, if_neg hVe, hu, hv]
        rw [base]
        rcases hc with h | h | h | h
        · rw [if_pos h]
        · by_cases h1 : vi < (md.num_users : ℤ)
          · rw [if_pos h1]
          · rw [if_neg h1, if_pos (Or.inr h)]
        · by_cases h1 : vi < (md.num_users : ℤ)
          · rw [if_pos h1]
          · by_cases h2 : vi - md.num_users < 0 ∨ (md.num_venues : ℤ) ≤ vi - md.num_users
            · rw [if_neg h1, if_pos h2]
            · rw [if_neg h1, if_neg h2, h]
        · by_cases h1 : vi < (md.num_users : ℤ)
          · rw [if_pos h1]
          · by_cases h2 : vi - md.num_users < 0 ∨ (md.num_venues : ℤ) ≤ vi - md.num_users
            · rw [if_neg h1, if_pos h2]
            · rw [if_neg h1, if_neg h2, h]

/-- C1 witness: a fully mapped one-user one-venue trained state; the
final score is the `0.7 / 0.3` blend of the rule score with the clamped
sigmoid of the predicted affinity (here affinity `0`). -/
theorem claim_C1_witness :
    perVenueFinal (fun _ => 1 / 2) (fun _ => 1) (fun _ _ _ _ => 5)
        (some (⟨some ⟨1, 1, 0, fun i => fun _ => (i : ℚ)⟩, some [],
          some ⟨1, 1, [(5, 0)], [(7, 1)]⟩⟩ : Trainer 1))
        ⟨5, none, none, 1 / 2⟩ none
        ⟨7, 41, -70, "restaurant", "italian", 2, 4, 1 / 2, true, 10⟩ =
      7 / 10 * calculateVenueScore (fun _ _ _ _ => 5) ⟨5, none, none, 1 / 2⟩ none
          ⟨7, 41, -70, "restaurant", "italian", 2, 4, 1 / 2, true, 10⟩ +
        3 / 10 * max 0 (min 1 ((fun _ : ℚ => (1 : ℚ) / 2) 0)) :=
  (claim_C1 (fun _ => 1 / 2) (fun _ => 1) (fun _ _ _ _ => 5)
      (some (⟨some ⟨1, 1, 0, fun i => fun _ => (i : ℚ)⟩, some [],
        some ⟨1, 1, [(5, 0)], [(7, 1)]⟩⟩ : Trainer 1))
      ⟨5, none, none, 1 / 2⟩ none
      ⟨7, 41, -70, "restaurant", "italian", 2, 4, 1 / 2, true, 10⟩).2.2.1
    _ _ ⟨1, 1, [(5, 0)], [(7, 1)]⟩ 0 1 0 [] rfl rfl rfl
    (by simp) (by simp)
    (by simp [alookup]) (by simp [alookup])
    (by norm_num) (by norm_num)
    (by norm_num [predictScores, forwardFinal, layerTables, dotQ, Fin.sum_univ_one])

/-- C1 counterexample to the claim as stated: with a trained model
attached but the requesting user absent from the training-time ID
mapping (cold start), the source blends the neutral placeholder `0.5`
instead of degrading to the rule score: the rule score is `1` but the
final score is `0.7 * 1 + 0.3 * 0.5 = 17 / 20 ≠ 1`. -/
theorem claim_C1_cex :
    perVenueFinal (fun _ => 1 / 2) (fun _ => 1) (fun _ _ _ _ => 5)
        (some (⟨some ⟨1, 1, 0, fun i => fun _ => (i : ℚ)⟩, some [],
          some ⟨1, 1, [(99, 0)], [(7, 1)]⟩⟩ : Trainer 1))
        ⟨1, none, none, 1 / 2⟩ none
        ⟨7, 41, -70, "restaurant", "italian", 2, 5, 1, true, 10⟩ = 17 / 20 ∧
    calculateVenueScore (fun _ _ _ _ => 5) ⟨1, none, none, 1 / 2⟩ none
        ⟨7, 41, -70, "restaurant", "italian", 2, 5, 1, true, 10⟩ = 1 ∧
    alookup ([((99 : ℤ), (0 : ℤ))]) 1 = none := by
  refine ⟨?_, ?_, by simp [alookup]⟩
  · norm_num [perVenueFinal, getGnnScore, alookup, calculateVenueScore, locTruthy,
      scoreFactors, weightedAverage, List.cons_ne_nil]
  · norm_num [calculateVenueScore, locTruthy, scoreFactors, weightedAverage,
      List.cons_ne_nil]

/-- Membership is preserved by the descending sort. -/
lemma mem_sortDesc {α : Type} (key : α → ℚ) (l : List α) (a : α) :
    a ∈ sortDesc key l ↔ a ∈ l :=
  (List.perm_insertionSort _ l).mem_iff

/-- Inversion for the candidate loop body: a produced entry wraps the
candidate itself, and its stored preferences (if any) mark it open to
new people. -/
lemma compatEntry_some {db : RecDb} {user : UserRow} {friend_ids : List ℤ}
    {venue_id : Option ℤ} {user_id : ℤ} {ou : UserRow} {su : UserRow × ℚ}
    (h : compatEntry db user friend_ids venue_id user_id ou = some su) :
    su.1 = ou ∧ ∀ p, alookup db.prefs ou.id = some p →
      p.open_to_new_people = true := by
  unfold compatEntry at h
  split at h
  · rename_i p hp
    split at h
    · cases h
    · rename_i hopen
      cases h
      refine ⟨rfl, fun q hq => ?_⟩
      rw [hp] at hq
      cases hq
      simpa using hopen
  · rename_i hp
    cases h
    refine ⟨rfl, fun q hq => ?_⟩
    rw [hp] at hq
    cases hq

/-- C9 (confirmed).  The compatible-users result never contains the
requesting user, never contains one of the requester's direct friends,
and never contains a candidate whose stored preferences mark them as not
open to new people. -/
theorem claim_C9 (db : RecDb) (user_id : ℤ) (venue_id : Option ℤ)
    (limit : ℕ) :
    ∀ r ∈ getCompatibleUsers db user_id venue_id limit,
      r.id ≠ user_id ∧ r.id ∉ friendIdsOf db user_id ∧
      (∀ p, alookup db.prefs r.id = some p → p.open_to_new_people = true) := by
  intro r hr
  rcases hfind : findUser db user_id with _ | user
  · rw [getCompatibleUsers, hfind] at hr
    cases hr
  · rw [getCompatibleUsers, hfind] at hr
    simp only at hr
    set friend_ids := friendIdsOf db user_id with hfi
    set excluded_ids := user_id :: friend_ids with hex
    set pool := db.users.filter (fun u => decide (u.id ∉ excluded_ids)) with hpool
    set other_users :=
      if (pool.take (min (limit * 10) 50)).length < limit ∧ excluded_ids.length < 50
        then pool.take 100
        else pool.take (min (limit * 10) 50) with hou
    by_cases hempty : other_users = []
    · rw [if_pos hempty] at hr
      cases hr
    · rw [if_neg hempty] at hr
      obtain ⟨su, hsu, hproj⟩ := List.mem_map.1 hr
      have hsu2 : su ∈ sortDesc (fun su : UserRow × ℚ => su.2)
          ((other_users.filterMap (compatEntry db user friend_ids venue_id user_id)).filter
            (fun su => decide (compatibilityThreshold ≤ su.2))) :=
        List.take_subset _ _ hsu
      have hsu3 := (mem_sortDesc _ _ _).1 hsu2
      have hsu4 := (List.mem_filter.1 hsu3).1
      obtain ⟨ou, houm, hentry⟩ := List.mem_filterMap.1 hsu4
      obtain ⟨hfst, hopen⟩ := compatEntry_some hentry
      have houp : ou ∈ pool := by
        have : other_users ⊆ pool := by
          rw [hou]
          split
          · exact List.take_subset _ _
          · exact List.take_subset _ _
        exact this houm
      have hnotex : ou.id ∉ excluded_ids := by
        have := (List.mem_filter.1 (hpool ▸ houp)).2
        exact of_decide_eq_true this
      have hid : r.id = ou.id := by
        rw [← hproj, hfst]
      rw [hex] at hnotex
      simp only [List.mem_cons, not_or] at hnotex
      refine ⟨?_, ?_, ?_⟩
      · rw [hid]
        exact hnotex.1
      · rw [hid]
        exact hnotex.2
      · intro p hp
        rw [hid] at hp
        exact hopen p hp

/-- C9 witness: with two mutually unrelated users, user 2 is returned to
user 1 with score `5 / 8`, and the exclusion guarantees hold of it. -/
theorem claim_C9_witness :
    (⟨2, 5 / 8⟩ : CompatOut).id ≠ 1 ∧
    (⟨2, 5 / 8⟩ : CompatOut).id ∉
      friendIdsOf ⟨[⟨1, none, none, 1 / 2⟩, ⟨2, none, none, 1 / 2⟩], [], [], [], []⟩ 1 ∧
    (∀ p, alookup (⟨[⟨1, none, none, 1 / 2⟩, ⟨2, none, none, 1 / 2⟩], [], [], [], []⟩ :
        RecDb).prefs (⟨2, 5 / 8⟩ : CompatOut).id = some p →
      p.open_to_new_people = true) :=
  claim_C9 ⟨[⟨1, none, none, 1 / 2⟩, ⟨2, none, none, 1 / 2⟩], [], [], [], []⟩ 1 none 10
    ⟨2, 5 / 8⟩
    (by norm_num [getCompatibleUsers, findUser, friendIdsOf, compatEntry,
      compatibilityScore, preferenceSimilarity, mutualCount, sharedInterest,
      alookup, sortDesc, List.insertionSort, List.orderedInsert,
      compatibilityThreshold, List.find?, List.filterMap_cons, List.filterMap_nil,
      List.filter_cons, List.filter_nil])

/-- A produced recommendation entry has a strictly positive final
score. -/
lemma recEntry_some_pos {dim : ℕ} {sig invSqrt : ℚ → ℚ}
    {hav : ℚ → ℚ → ℚ → ℚ → ℚ} {trainer : Option (Trainer dim)}
    {user : UserRow} {preferences : Option Prefs} {venue : Venue} {r : RecOut}
    (h : recEntry sig invSqrt hav trainer user preferences venue = some r) :
    0 < r.score := by
  unfold recEntry at h
  dsimp only at h
  split at h
  · rename_i hpos
    cases h
    exact hpos
  · cases h

/-- A produced group entry has a strictly positive group score. -/
lemma groupEntry_some_pos {hav : ℚ → ℚ → ℚ → ℚ → ℚ}
    {clat clon : ℚ} {cs : List String} {mn mx : List ℤ} {md : List ℚ}
    {gs : ℕ} {venue : Venue} {g : GroupOut}
    (h : groupEntry hav clat clon cs mn mx md gs venue = some g) :
    0 < g.group_score := by
  unfold groupEntry at h
  dsimp only at h
  split at h
  · rename_i hpos
    cases h
    exact hpos
  · cases h

/-- C10 (amended).  Both ranked lists only ever contain entries with
strictly positive scores, so a venue whose computed score is `≤ 0` never
appears; with no trained model attached a venue beyond the max-distance
cutoff has final score exactly `0` (hence is omitted); but with a model
attached such a venue can reappear through the blended GNN term (see the
counterexample), so the unconditional omission in the claim fails. -/
theorem claim_C10 {dim : ℕ} (sig invSqrt : ℚ → ℚ) (hav : ℚ → ℚ → ℚ → ℚ → ℚ)
    (cosQ : ℚ → ℚ) (trainer : Option (Trainer dim)) (db : RecDb)
    (user_id : ℤ) (limit : ℕ) (category_filter : Option String)
    (min_rating : Option ℚ) (user_ids : List ℤ) :
    (∀ r ∈ venueRecommendations sig invSqrt hav trainer db user_id limit
        category_filter min_rating, 0 < r.score) ∧
    (∀ g ∈ findOptimalVenueForGroup hav cosQ db user_ids, 0 < g.group_score) ∧
    (∀ user (p : Prefs) venue, locTruthy user = true →
      hav (user.latitude.getD 0) (user.longitude.getD 0)
          venue.latitude venue.longitude > p.max_distance →
      perVenueFinal sig invSqrt hav (none : Option (Trainer dim)) user (some p) venue = 0) := by
  refine ⟨?_, ?_, ?_⟩
  · intro r hr
    rcases hfind : findUser db user_id with _ | user
    · rw [venueRecommendations, hfind] at hr
      cases hr
    · rw [venueRecommendations, hfind] at hr
      simp only at hr
      have hr2 := List.take_subset _ _ hr
      have hr3 := (mem_sortDesc _ _ _).1 hr2
      obtain ⟨venue, _, hentry⟩ := List.mem_filterMap.1 hr3
      exact recEntry_some_pos hentry
  · intro g hg
    rw [findOptimalVenueForGroup] at hg
    by_cases h1 : user_ids = []
    · rw [if_pos h1] at hg
      cases hg
    · rw [if_neg h1] at hg
      simp only at hg
      by_cases h2 : (db.users.filter (fun u => decide (u.id ∈ user_ids))).map
          (fun u => (u, alookup db.prefs u.id)) = []
      · rw [if_pos h2] at hg
        cases hg
      · rw [if_neg h2] at hg
        have hg2 := List.take_subset _ _ hg
        have hg3 := (mem_sortDesc _ _ _).1 hg2
        obtain ⟨venue, _, hentry⟩ := List.mem_filterMap.1 hg3
        exact groupEntry_some_pos hentry
  · intro user p venue hloc hfar
    have hrule : calculateVenueScore hav user (some p) venue = 0 := by
      simp only [calculateVenueScore, hloc, if_true]
      rw [if_pos hfar]
    rw [perVenueFinal]
    simpa using hrule

/-- C10 witness: with no trainer, a single venue scores `31 / 40` for a
location-less user and is returned with a strictly positive score. -/
theorem claim_C10_witness :
    0 < (⟨7, 31 / 40, 31 / 40⟩ : RecOut).score :=
  (claim_C10 (fun _ => 1 / 2) (fun _ => 1) (fun _ _ _ _ => 5)
      (fun _ => 1) (none : Option (Trainer 1))
      ⟨[⟨1, none, none, 1 / 2⟩],
        [⟨7, 41, -70, "restaurant", "italian", 2, 4, 1 / 2, true, 10⟩],
        [], [], []⟩ 1 10 none none []).1
    ⟨7, 31 / 40, 31 / 40⟩
    (by norm_num [venueRecommendations, findUser, List.find?, alookup, recEntry,
      perVenueFinal, calculateVenueScore, locTruthy, scoreFactors,
      weightedAverage, List.cons_ne_nil, sortDesc, List.insertionSort,
      List.orderedInsert, List.filterMap_cons, List.filterMap_nil,
      List.filter_cons, List.filter_nil])

/-- C10 counterexample to the "in particular" clause of the claim: the
user is 100 km (oracle distance) from the only venue with a 10 km
max-distance preference, so the rule score is `0`; yet with a trained
model attached and the user absent from its ID mapping the final score
is `0.3 * 0.5 = 0.15 > 0`, and the beyond-cutoff venue IS listed instead
of omitted. -/
theorem claim_C10_cex :
    (venueRecommendations (fun _ => 1 / 2) (fun _ => 1)
        (fun _ _ _ _ => 100)
        (some (⟨some ⟨1, 1, 0, fun i => fun _ => (i : ℚ)⟩, some [],
          some ⟨1, 1, [(99, 0)], [(7, 1)]⟩⟩ : Trainer 1))
        ⟨[⟨1, some 40, some (-70), 1 / 2⟩],
          [⟨7, 10, 60, "restaurant", "italian", 2, 4, 1 / 2, true, 10⟩],
          [(1, ⟨["italian"], 1, 4, [], 10, true⟩)], [], []⟩
        1 10 none none).map (fun r => r.id) = [7] ∧
    (100 : ℚ) > (10 : ℚ) := by
  refine ⟨?_, by norm_num⟩
  norm_num [venueRecommendations, findUser, List.find?, alookup, recEntry,
    perVenueFinal, getGnnScore, calculateVenueScore, locTruthy, scoreFactors,
    weightedAverage, List.cons_ne_nil, sortDesc, List.insertionSort,
    List.orderedInsert, List.filterMap_cons, List.filterMap_nil,
    List.filter_cons, List.filter_nil]

/-! ### bpr_loss (`lightgcn.py` lines 189-222)

The loss is genuinely about `exp` and `log` numerics, so this section
alone is modelled over the reals (hence noncomputable definitions;
concrete facts are established by `norm_num`-style reasoning instead of
evaluation). -/

/-- Real-valued embedding vector. -/
abbrev VecR (dim : ℕ) : Type := Fin dim → ℝ

/-- Dot product over the reals. -/
noncomputable def dotR {dim : ℕ} (u v : VecR dim) : ℝ := ∑ j, u j * v j

/-- `torch.sigmoid`. -/
noncomputable def sigmoidR (x : ℝ) : ℝ := 1 / (1 + Real.exp (-x))

/-- The `1e-10` guard added inside the logarithm. -/
noncomputable def bprEps : ℝ := 1 / 10 ^ 10

/-- Score of one `(user_row, venue_row)` pair: the dot product of the
indexed embedding rows (indices are in range on every training path; an
out-of-range row is modelled as the zero row). -/
noncomputable def pairScore {dim : ℕ}
    (user_embeddings venue_embeddings : List (VecR dim)) (p : ℕ × ℕ) : ℝ :=
  dotR (user_embeddings.getD p.1 0) (venue_embeddings.getD p.2 0)

/-- Per-pair terms of `bpr_loss`:
`log(sigmoid(pos_scores - neg_scores) + 1e-10)`. -/
noncomputable def bprTerms {dim : ℕ}
    (user_embeddings venue_embeddings : List (VecR dim))
    (positive_pairs negative_pairs : List (ℕ × ℕ)) : List ℝ :=
  List.zipWith
    (fun p n => Real.log
      (sigmoidR (pairScore user_embeddings venue_embeddings p -
        pairScore user_embeddings venue_embeddings n) + bprEps))
    positive_pairs negative_pairs

/-- Embedding of `bpr_loss`:
`-mean(log(sigmoid(pos_scores - neg_scores) + 1e-10))`. -/
noncomputable def bprLoss {dim : ℕ}
    (user_embeddings venue_embeddings : List (VecR dim))
    (positive_pairs negative_pairs : List (ℕ × ℕ)) : ℝ :=
  -((bprTerms user_embeddings venue_embeddings positive_pairs negative_pairs).sum /
    (bprTerms user_embeddings venue_embeddings positive_pairs negative_pairs).length)

/-- The sigmoid is strictly positive. -/
lemma sigmoidR_pos (x : ℝ) : 0 < sigmoidR x := by
  unfold sigmoidR
  positivity

/-- The sigmoid is strictly monotone. -/
lemma sigmoidR_strictMono : StrictMono sigmoidR := by
  intro x y hxy
  unfold sigmoidR
  have hexp : Real.exp (-y) < Real.exp (-x) :=
    Real.exp_lt_exp.mpr (neg_lt_neg hxy)
  have hx : (0 : ℝ) < 1 + Real.exp (-y) := by positivity
  have hlt : 1 + Real.exp (-y) < 1 + Real.exp (-x) := by linarith
  have := one_div_lt_one_div_of_lt hx hlt
  simpa using this

/-- The sum of a nonempty list of negative reals is negative. -/
lemma sum_neg_of_all_neg : ∀ {l : List ℝ}, l ≠ [] → (∀ x ∈ l, x < 0) →
    l.sum < 0 := by
  intro l
  induction l with
  | nil => intro h; exact absurd rfl h
  | cons a t ih =>
    intro _ hall
    rcases eq_or_ne t [] with rfl | ht
    · simpa using hall a (by simp)
    · have hts : t.sum < 0 := ih ht (fun x hx => hall x (List.mem_cons_of_mem _ hx))
      have ha : a < 0 := hall a (by simp)
      simp only [List.sum_cons]
      linarith

/-- The single-pair loss in terms of the score gap `g`: positive score
`g`, negative score `0`. -/
lemma bprLoss_single (g : ℝ) :
    bprLoss ([fun _ => g] : List (VecR 1)) [fun _ => 1, fun _ => 0] [(0, 0)] [(0, 1)] =
      -Real.log (sigmoidR g + bprEps) := by
  simp [bprLoss, bprTerms, pairScore, dotR, Fin.sum_univ_one]

/-- C8 (amended).  The BPR loss is strictly positive provided every
score gap satisfies `sigmoid(gap) + 1e-10 < 1` (in particular for all
moderate gaps), and the single-pair loss is strictly decreasing in the
gap between the positive and the negative score; for extreme gaps the
`1e-10` guard pushes the logarithm above zero and the loss becomes
negative (see the counterexample). -/
theorem claim_C8 {dim : ℕ} (user_embeddings venue_embeddings : List (VecR dim))
    (positive_pairs negative_pairs : List (ℕ × ℕ))
    (hne : List.zipWith
      (fun p n => pairScore user_embeddings venue_embeddings p -
        pairScore user_embeddings venue_embeddings n)
      positive_pairs negative_pairs ≠ [])
    (hsmall : ∀ q ∈ List.zipWith
      (fun p n => pairScore user_embeddings venue_embeddings p -
        pairScore user_embeddings venue_embeddings n)
      positive_pairs negative_pairs, sigmoidR q + bprEps < 1) :
    0 < bprLoss user_embeddings venue_embeddings positive_pairs negative_pairs ∧
    (∀ g1 g2 : ℝ, g1 < g2 →
      bprLoss ([fun _ => g2] : List (VecR 1)) [fun _ => 1, fun _ => 0] [(0, 0)] [(0, 1)] <
      bprLoss ([fun _ => g1] : List (VecR 1)) [fun _ => 1, fun _ => 0] [(0, 0)] [(0, 1)]) := by
  constructor
  · unfold bprLoss
    set gaps := List.zipWith
      (fun p n => pairScore user_embeddings venue_embeddings p -
        pairScore user_embeddings venue_embeddings n)
      positive_pairs negative_pairs with hgaps
    have hterms : bprTerms user_embeddings venue_embeddings
        positive_pairs negative_pairs =
        gaps.map (fun q => Real.log (sigmoidR q + bprEps)) := by
      unfold bprTerms
      rw [hgaps, List.map_zipWith]
    rw [hterms]
    have hneg : ∀ x ∈ gaps.map (fun q => Real.log (sigmoidR q + bprEps)), x < 0 := by
      intro x hx
      obtain ⟨q, hq, rfl⟩ := List.mem_map.1 hx
      have h0 : 0 < sigmoidR q + bprEps := by
        have := sigmoidR_pos q
        have : (0:ℝ) < bprEps := by unfold bprEps; norm_num
        positivity
      exact Real.log_neg h0 (hsmall q hq)
    have hsumneg : (gaps.map (fun q => Real.log (sigmoidR q + bprEps))).sum < 0 :=
      sum_neg_of_all_neg (by simpa using hne) hneg
    have hlen : (0:ℝ) < (gaps.map (fun q => Real.log (sigmoidR q + bprEps))).length := by
      have : gaps ≠ [] := hne
      have hl : gaps.length ≠ 0 := fun h => this (List.length_eq_zero.1 h)
      simp only [List.length_map]
      exact_mod_cast Nat.pos_of_ne_zero hl
    have := div_neg_of_neg_of_pos hsumneg hlen
    linarith
  · intro g1 g2 h12
    rw [bprLoss_single, bprLoss_single]
    have hs : sigmoidR g1 + bprEps < sigmoidR g2 + bprEps := by
      have := sigmoidR_strictMono h12
      linarith
    have h0 : 0 < sigmoidR g1 + bprEps := by
      have h1 := sigmoidR_pos g1
      have h2 : (0:ℝ) < bprEps := by unfold bprEps; norm_num
      linarith
    have := Real.log_lt_log h0 hs
    linarith

/-- C8 witness: one pair with gap `0` (`sigmoid 0 + 1e-10 = 1/2 + 1e-10 < 1`),
so the loss is strictly positive, and the single-pair loss strictly
decreases from gap `0` to gap `1`. -/
theorem claim_C8_witness :
    0 < bprLoss ([fun _ => 0] : List (VecR 1)) [fun _ => 1, fun _ => 0] [(0, 0)] [(0, 1)] ∧
    (∀ g1 g2 : ℝ, g1 < g2 →
      bprLoss ([fun _ => g2] : List (VecR 1)) [fun _ => 1, fun _ => 0] [(0, 0)] [(0, 1)] <
      bprLoss ([fun _ => g1] : List (VecR 1)) [fun _ => 1, fun _ => 0] [(0, 0)] [(0, 1)]) :=
  claim_C8 ([fun _ => 0] : List (VecR 1)) [fun _ => 1, fun _ => 0] [(0, 0)] [(0, 1)]
    (by simp [pairScore, dotR, Fin.sum_univ_one])
    (by
      intro q hq
      simp only [List.zipWith_cons_cons, List.zipWith_nil_right,
        List.mem_singleton] at hq
      subst hq
      have hgap : pairScore ([fun _ => 0] : List (VecR 1)) [fun _ => 1, fun _ => 0] (0, 0) -
          pairScore ([fun _ => 0] : List (VecR 1)) [fun _ => 1, fun _ => 0] (0, 1) = 0 := by
        simp [pairScore, dotR, Fin.sum_univ_one]
      rw [hgap]
      have : sigmoidR 0 = 1 / 2 := by
        unfold sigmoidR
        rw [neg_zero, Real.exp_zero]
        norm_num
      rw [this]
      unfold bprEps
      norm_num)

/-- C8 counterexample to the claim as stated: at score gap `30` the
quantity `sigmoid(30) + 1e-10` exceeds `1` (because
`exp 30 > 10 ^ 10`), so the logarithm is positive and the loss is
NEGATIVE, contradicting strict positivity for all finite inputs. -/
theorem claim_C8_cex :
    bprLoss ([fun _ => 30] : List (VecR 1)) [fun _ => 1, fun _ => 0] [(0, 0)] [(0, 1)] < 0 := by
  rw [bprLoss_single]
  have hexp : (10:ℝ) ^ 10 < Real.exp 30 := by
    have h2 : (5 / 2 : ℝ) < Real.exp 1 := lt_trans (by norm_num) Real.exp_one_gt_d9
    have h3 : ((5 / 2 : ℝ)) ^ (30:ℕ) < (Real.exp 1) ^ (30:ℕ) :=
      pow_lt_pow_left h2 (by norm_num) (by norm_num)
    have h4 : (Real.exp 1) ^ (30:ℕ) = Real.exp 30 := by
      rw [← Real.exp_nat_mul]
      norm_num
    have h5 : (10:ℝ) ^ 10 < (5 / 2 : ℝ) ^ (30:ℕ) := by norm_num
    linarith
  have hu : Real.exp (-30) < 1 / 10 ^ 10 := by
    rw [Real.exp_neg]
    rw [div_eq_inv_mul, mul_one]
    exact inv_lt_inv_of_lt (by positivity) hexp
  have hupos : 0 < Real.exp (-30) := Real.exp_pos _
  have hgt1 : 1 < sigmoidR 30 + bprEps := by
    unfold sigmoidR bprEps
    set u := Real.exp (-30) with hudef
    have hden : (0:ℝ) < 1 + u := by linarith
    have hfrac : 1 - 1 / (1 + u) = u / (1 + u) := by
      field_simp
    have hlt : u / (1 + u) < u := by
      have h1u : 1 < 1 + u := by linarith
      calc u / (1 + u) < u / 1 := by
            exact div_lt_div_of_pos_left hupos (by norm_num) h1u
        _ = u := div_one u
    have : 1 - 1 / (1 + u) < 1 / 10 ^ 10 := by linarith
    linarith
  have hlog : 0 < Real.log (sigmoidR 30 + bprEps) := Real.log_pos hgt1
  linarith

/-! ### GraphDataBuilder (`backend/app/services/graph_data.py`)

The SQL queries are modelled as list traversals over row snapshots in
the order the source receives them; a Python `dict` keeps its keys in
first-insertion order, modelled by `firstDedup`, and `sorted(set(...))`
by `pySortedSet`. -/

/-- Interaction types (`InteractionType`). -/
inductive IType where
  | view
  | save
  | share
  | like
  | review
  deriving DecidableEq

/-- `UserInteraction` row. -/
structure InteractionRow where
  user_id : ℤ
  venue_id : Option ℤ
  interaction_type : IType
  duration_seconds : Option ℚ
  deriving DecidableEq

/-- `VenueInterest` row. -/
structure InterestRow where
  user_id : ℤ
  venue_id : ℤ
  interest_score : ℚ
  explicitly_interested : Bool
  deriving DecidableEq

/-- `Booking` row. -/
structure BookingRow where
  user_id : ℤ
  venue_id : ℤ
  deriving DecidableEq

/-- `Friendship` row. -/
structure FriendshipRow where
  user_id : ℤ
  friend_id : ℤ
  deriving DecidableEq

/-- First-occurrence deduplication (Python `dict` key order). -/
def firstDedup {α : Type} [DecidableEq α] (seen : List α) : List α → List α
  | [] => []
  | a :: l => if a ∈ seen then firstDedup seen l else a :: firstDedup (a :: seen) l

/-- Python `sorted(set(...))` over integer ids. -/
def pySortedSet (l : List ℤ) : List ℤ :=
  List.insertionSort (· ≤ ·) (firstDedup [] l)

/-- User ids with at least `min_interactions` interaction rows (the
`GROUP BY ... HAVING count >= min_interactions` query). -/
def activeUserIdList (min_interactions : ℕ) (ints : List InteractionRow) : List ℤ :=
  (firstDedup [] (ints.map (fun r => r.user_id))).filter
    (fun u => decide (min_interactions ≤ (ints.map (fun r => r.user_id)).count u))

/-- Venue ids (non-null) with at least `min_interactions` interaction
rows. -/
def activeVenueIdList (min_interactions : ℕ) (ints : List InteractionRow) : List ℤ :=
  (firstDedup [] (ints.filterMap (fun r => r.venue_id))).filter
    (fun v => decide (min_interactions ≤ (ints.filterMap (fun r => r.venue_id)).count v))

/-- The deterministic user id list: `sorted(set(active + interested))`. -/
def allUserIds (min_interactions : ℕ) (ints : List InteractionRow)
    (irs : List InterestRow) : List ℤ :=
  pySortedSet (activeUserIdList min_interactions ints ++ irs.map (fun r => r.user_id))

/-- The deterministic venue id list: `sorted(set(active + interested))`. -/
def allVenueIds (min_interactions : ℕ) (ints : List InteractionRow)
    (irs : List InterestRow) : List ℤ :=
  pySortedSet (activeVenueIdList min_interactions ints ++ irs.map (fun r => r.venue_id))

/-- Index of the first occurrence in an id list (the enumerated
`id_to_idx` mapping). -/
def idxOf : List ℤ → ℤ → Option ℕ
  | [], _ => none
  | a :: l, x => if a = x then some 0 else (idxOf l x).map (fun n => n + 1)

/-- User graph index `[0, num_users)`. -/
def userIdx (ul : List ℤ) (uid : ℤ) : Option ℕ := idxOf ul uid

/-- Venue graph index `[num_users, num_users + num_venues)`. -/
def venueIdx (ul vl : List ℤ) (vid : ℤ) : Option ℕ :=
  (idxOf vl vid).map (fun n => ul.length + n)

/-- Interaction-type weight plus the view-duration bonus
(`if interaction_type == VIEW and duration:`). -/
def interactionWeight (r : InteractionRow) : ℚ :=
  (match r.interaction_type with
   | IType.view => 1
   | IType.save => 3
   | IType.share => 2
   | IType.like => 5 / 2
   | IType.review => 4) +
  (match r.interaction_type, r.duration_seconds with
   | IType.view, some d => if d ≠ 0 then min (d / 60) 2 else 0
   | _, _ => 0)

/-- Venue-interest weight: `5.0` if explicit else `interest_score * 3.0`. -/
def interestWeight (r : InterestRow) : ℚ :=
  if r.explicitly_interested then 5 else r.interest_score * 3

/-- Graph pair of an interaction row when the venue is non-null and both
endpoints are mapped (the SQL pre-filter and the loop `continue`). -/
def intPair (ul vl : List ℤ) (r : InteractionRow) : Option (ℕ × ℕ) :=
  match r.venue_id with
  | none => none
  | some v =>
    match userIdx ul r.user_id, venueIdx ul vl v with
    | some ui, some vi => some (ui, vi)
    | _, _ => none

/-- Graph pair of an interest row when both endpoints are mapped. -/
def interestPair (ul vl : List ℤ) (r : InterestRow) : Option (ℕ × ℕ) :=
  match userIdx ul r.user_id, venueIdx ul vl r.venue_id with
  | some ui, some vi => some (ui, vi)
  | _, _ => none

/-- Graph pair of a booking row when both endpoints are mapped. -/
def bookingPair (ul vl : List ℤ) (r : BookingRow) : Option (ℕ × ℕ) :=
  match userIdx ul r.user_id, venueIdx ul vl r.venue_id with
  | some ui, some vi => some (ui, vi)
  | _, _ => none

/-- The `(pair, weight)` contributions accumulated into the
`edge_weights` dict, in source order: interactions, then interests, then
bookings. -/
def weightContribs (ul vl : List ℤ) (ints : List InteractionRow)
    (irs : List InterestRow) (bks : List BookingRow) : List ((ℕ × ℕ) × ℚ) :=
  ints.filterMap (fun r => (intPair ul vl r).map (fun p => (p, interactionWeight r))) ++
  irs.filterMap (fun r => (interestPair ul vl r).map (fun p => (p, interestWeight r))) ++
  bks.filterMap (fun r => (bookingPair ul vl r).map (fun p => (p, (10 : ℚ))))

/-- Aggregate weight of a pair: the sum of its contributions. -/
def aggWeight (contribs : List ((ℕ × ℕ) × ℚ)) (p : ℕ × ℕ) : ℚ :=
  ((contribs.filter (fun c => decide (c.1 = p))).map Prod.snd).sum

/-- Python `int()` truncation toward zero. -/
def truncQ (q : ℚ) : ℤ := if 0 ≤ q then ⌊q⌋ else -⌊-q⌋

/-- Parallel-edge multiplicity per pair: `min(max(1, int(weight)), 10)`. -/
def edgeMult (w : ℚ) : ℕ := (min (max 1 (truncQ w)) 10).toNat

/-- User-venue edge list: dict keys in first-insertion order, each
replicated to its multiplicity. -/
def userVenueEdges (contribs : List ((ℕ × ℕ) × ℚ)) : List (ℕ × ℕ) :=
  (firstDedup [] (contribs.map Prod.fst)).flatMap
    (fun p => List.replicate (edgeMult (aggWeight contribs p)) p)

/-- Friendship edges, both directions per row with mapped endpoints. -/
def friendEdges (ul : List ℤ) (ffs : List FriendshipRow) : List (ℕ × ℕ) :=
  (ffs.filterMap (fun f =>
    match userIdx ul f.user_id, userIdx ul f.friend_id with
    | some a, some b => some (a, b)
    | _, _ => none)).flatMap (fun p => [p, (p.2, p.1)])

/-- Metadata returned by `build_graph`. -/
structure GraphMeta where
  num_users : ℕ
  num_venues : ℕ
  num_edges : ℕ
  num_user_venue_edges : ℕ
  num_user_user_edges : ℕ
  user_ids : List ℤ
  venue_ids : List ℤ
  deriving DecidableEq

/-- Embedding of `GraphDataBuilder.build_graph`: id mappings, the
weighted user-venue edges, optional friendship edges, and the metadata;
the two empty cases return empty graphs, not errors. -/
def buildGraph (min_interactions : ℕ) (include_friendships : Bool)
    (ints : List InteractionRow) (irs : List InterestRow)
    (bks : List BookingRow) (ffs : List FriendshipRow) :
    List (ℕ × ℕ) × GraphMeta :=
  let ul := allUserIds min_interactions ints irs
  let vl := allVenueIds min_interactions ints irs
  if ul.length = 0 ∨ vl.length = 0 then
    ([], ⟨0, 0, 0, 0, 0, [], []⟩)
  else
    let contribs := weightContribs ul vl ints irs bks
    let user_venue_edges := userVenueEdges contribs
    let user_user_edges := if include_friendships then friendEdges ul ffs else []
    let all_edges := user_venue_edges ++ user_user_edges
    if all_edges = [] then
      ([], ⟨ul.length, vl.length, 0, 0, 0, [], []⟩)
    else
      (all_edges, ⟨ul.length, vl.length, all_edges.length,
        user_venue_edges.length, user_user_edges.length, ul, vl⟩)

/-- Membership in the first-occurrence deduplication. -/
lemma mem_firstDedup {α : Type} [DecidableEq α] :
    ∀ (l seen : List α) (a : α),
      a ∈ firstDedup seen l ↔ a ∈ l ∧ a ∉ seen := by
  intro l
  induction l with
  | nil => intro seen a; simp [firstDedup]
  | cons b l ih =>
    intro seen a
    rw [firstDedup]
    by_cases hb : b ∈ seen
    · rw [if_pos hb, ih]
      constructor
      · rintro ⟨h1, h2⟩
        exact ⟨List.mem_cons_of_mem _ h1, h2⟩
      · rintro ⟨h1, h2⟩
        rcases List.mem_cons.1 h1 with rfl | h1
        · exact absurd hb h2
        · exact ⟨h1, h2⟩
    · rw [if_neg hb]
      simp only [List.mem_cons, ih]
      constructor
      · rintro (rfl | ⟨h1, h2⟩)
        · exact ⟨Or.inl rfl, hb⟩
        · exact ⟨Or.inr h1, fun hs => h2 (Or.inr hs)⟩
      · rintro ⟨h1, h2⟩
        by_cases hab : a = b
        · exact Or.inl hab
        · rcases h1 with rfl | h1
          · exact Or.inl rfl
          · exact Or.inr ⟨h1, fun hmem => hmem.elim hab h2⟩

/-- The first-occurrence deduplication has no duplicates. -/
lemma nodup_firstDedup {α : Type} [DecidableEq α] :
    ∀ (l seen : List α), (firstDedup seen l).Nodup := by
  intro l
  induction l with
  | nil => intro seen; simp [firstDedup]
  | cons b l ih =>
    intro seen
    rw [firstDedup]
    by_cases hb : b ∈ seen
    · rw [if_pos hb]
      exact ih seen
    · rw [if_neg hb, List.nodup_cons]
      refine ⟨fun hmem => ?_, ih (b :: seen)⟩
      exact ((mem_firstDedup l (b :: seen) b).1 hmem).2 (List.mem_cons_self b seen)

/-- Member-equal lists have permuted first-occurrence deduplications. -/
lemma firstDedup_perm {α : Type} [DecidableEq α] {l₁ l₂ : List α}
    (h : ∀ a, a ∈ l₁ ↔ a ∈ l₂) :
    List.Perm (firstDedup [] l₁) (firstDedup [] l₂) := by
  rw [List.perm_ext_iff_of_nodup (nodup_firstDedup _ _) (nodup_firstDedup _ _)]
  intro a
  simp [mem_firstDedup, h a]

/-- Member-equal id lists have equal `sorted(set(...))` results. -/
lemma pySortedSet_eq {l₁ l₂ : List ℤ} (h : ∀ a, a ∈ l₁ ↔ a ∈ l₂) :
    pySortedSet l₁ = pySortedSet l₂ := by
  have hperm : List.Perm (List.insertionSort (· ≤ ·) (firstDedup [] l₁))
      (List.insertionSort (· ≤ ·) (firstDedup [] l₂)) :=
    ((List.perm_insertionSort _ _).trans (firstDedup_perm h)).trans
      (List.perm_insertionSort _ _).symm
  exact List.eq_of_perm_of_sorted hperm
    (List.sorted_insertionSort _ _) (List.sorted_insertionSort _ _)

/-- Permuted interaction and interest rows produce the same user id
list. -/
lemma allUserIds_eq (min_interactions : ℕ)
    {ints₁ ints₂ : List InteractionRow} {irs₁ irs₂ : List InterestRow}
    (hi : List.Perm ints₁ ints₂) (hr : List.Perm irs₁ irs₂) :
    allUserIds min_interactions ints₁ irs₁ = allUserIds min_interactions ints₂ irs₂ := by
  unfold allUserIds
  refine pySortedSet_eq fun a => ?_
  have hmap := hi.map (fun r => r.user_id)
  have hrmap := hr.map (fun r => r.user_id)
  simp only [List.mem_append, activeUserIdList, List.mem_filter,
    mem_firstDedup, List.not_mem_nil, not_false_eq_true, and_true,
    decide_eq_true_eq, hmap.mem_iff, hmap.count_eq, hrmap.mem_iff]

/-- Permuted interaction and interest rows produce the same venue id
list. -/
lemma allVenueIds_eq (min_interactions : ℕ)
    {ints₁ ints₂ : List InteractionRow} {irs₁ irs₂ : List InterestRow}
    (hi : List.Perm ints₁ ints₂) (hr : List.Perm irs₁ irs₂) :
    allVenueIds min_interactions ints₁ irs₁ = allVenueIds min_interactions ints₂ irs₂ := by
  unfold allVenueIds
  refine pySortedSet_eq fun a => ?_
  have hmap := hi.filterMap (fun r => r.venue_id)
  have hrmap := hr.map (fun r => r.venue_id)
  simp only [List.mem_append, activeVenueIdList, List.mem_filter,
    mem_firstDedup, List.not_mem_nil, not_false_eq_true, and_true,
    decide_eq_true_eq, hmap.mem_iff, hmap.count_eq, hrmap.mem_iff]

/-- C6 (confirmed, in the stronger order-independent form).  Two builds
over interaction, interest, booking and friendship record lists that are
permutations of each other (the identity permutation covers "same rows
in the same order") produce identical metadata — hence identical ID-to-
index assignments and edge counts — and equal edge multisets. -/
theorem claim_C6 (min_interactions : ℕ) (include_friendships : Bool)
    {ints₁ ints₂ : List InteractionRow} {irs₁ irs₂ : List InterestRow}
    {bks₁ bks₂ : List BookingRow} {ffs₁ ffs₂ : List FriendshipRow}
    (hi : List.Perm ints₁ ints₂) (hr : List.Perm irs₁ irs₂)
    (hb : List.Perm bks₁ bks₂) (hf : List.Perm ffs₁ ffs₂) :
    (buildGraph min_interactions include_friendships ints₁ irs₁ bks₁ ffs₁).2 =
      (buildGraph min_interactions include_friendships ints₂ irs₂ bks₂ ffs₂).2 ∧
    (Multiset.ofList (buildGraph min_interactions include_friendships ints₁ irs₁ bks₁ ffs₁).1 =
      Multiset.ofList (buildGraph min_interactions include_friendships ints₂ irs₂ bks₂ ffs₂).1) := by
  have hu := allUserIds_eq min_interactions hi hr
  have hv := allVenueIds_eq min_interactions hi hr
  set ul := allUserIds min_interactions ints₁ irs₁ with hul
  set vl := allVenueIds min_interactions ints₁ irs₁ with hvl
  have hc : List.Perm (weightContribs ul vl ints₁ irs₁ bks₁)
      (weightContribs ul vl ints₂ irs₂ bks₂) :=
    List.Perm.append
      (List.Perm.append (hi.filterMap _) (hr.filterMap _)) (hb.filterMap _)
  have hagg : aggWeight (weightContribs ul vl ints₁ irs₁ bks₁) =
      aggWeight (weightContribs ul vl ints₂ irs₂ bks₂) := by
    funext p
    unfold aggWeight
    exact ((hc.filter _).map _).sum_eq
  have hkeys : List.Perm
      (firstDedup [] ((weightContribs ul vl ints₁ irs₁ bks₁).map Prod.fst))
      (firstDedup [] ((weightContribs ul vl ints₂ irs₂ bks₂).map Prod.fst)) :=
    firstDedup_perm (fun a => (hc.map Prod.fst).mem_iff)
  have huv : List.Perm (userVenueEdges (weightContribs ul vl ints₁ irs₁ bks₁))
      (userVenueEdges (weightContribs ul vl ints₂ irs₂ bks₂)) := by
    unfold userVenueEdges
    rw [hagg]
    exact hkeys.flatMap_right _
  have hff : List.Perm (friendEdges ul ffs₁) (friendEdges ul ffs₂) :=
    (hf.filterMap _).flatMap_right _
  have huu : List.Perm
      (if include_friendships then friendEdges ul ffs₁ else [])
      (if include_friendships then friendEdges ul ffs₂ else []) := by
    cases include_friendships
    · simp
    · simpa using hff
  have hall : List.Perm
      (userVenueEdges (weightContribs ul vl ints₁ irs₁ bks₁) ++
        (if include_friendships then friendEdges ul ffs₁ else []))
      (userVenueEdges (weightContribs ul vl ints₂ irs₂ bks₂) ++
        (if include_friendships then friendEdges ul ffs₂ else [])) :=
    huv.append huu
  unfold buildGraph
  rw [← hu, ← hv]
  dsimp only
  by_cases hz : ul.length = 0 ∨ vl.length = 0
  · rw [if_pos hz, if_pos hz]
    exact ⟨rfl, rfl⟩
  · rw [if_neg hz, if_neg hz]
    by_cases he : userVenueEdges (weightContribs ul vl ints₁ irs₁ bks₁) ++
        (if include_friendships then friendEdges ul ffs₁ else []) = []
    · have he2 : userVenueEdges (weightContribs ul vl ints₂ irs₂ bks₂) ++
          (if include_friendships then friendEdges ul ffs₂ else []) = [] := by
        have := hall.length_eq
        rw [he] at this
        exact List.length_eq_zero.1 this.symm
      rw [if_pos he, if_pos he2]
      exact ⟨rfl, rfl⟩
    · have he2 : ¬ (userVenueEdges (weightContribs ul vl ints₂ irs₂ bks₂) ++
          (if include_friendships then friendEdges ul ffs₂ else []) = []) := by
        intro h0
        apply he
        have := hall.length_eq
        rw [h0] at this
        exact List.length_eq_zero.1 this
      rw [if_neg he, if_neg he2]
      refine ⟨?_, ?_⟩
      · simp only [GraphMeta.mk.injEq]
        exact ⟨trivial, trivial, hall.length_eq, huv.length_eq, huu.length_eq,
          trivial, trivial⟩
      · exact Multiset.coe_eq_coe.mpr hall

/-- C6 witness: two two-row interaction logs that are permutations of
each other (with one interest row) build the same metadata and the same
edge multiset. -/
theorem claim_C6_witness :
    (buildGraph 1 true
        [⟨1, some 7, IType.view, none⟩, ⟨2, some 7, IType.save, none⟩]
        [⟨1, 7, 1, true⟩] [] []).2 =
      (buildGraph 1 true
        [⟨2, some 7, IType.save, none⟩, ⟨1, some 7, IType.view, none⟩]
        [⟨1, 7, 1, true⟩] [] []).2 ∧
    (Multiset.ofList (buildGraph 1 true
        [⟨1, some 7, IType.view, none⟩, ⟨2, some 7, IType.save, none⟩]
        [⟨1, 7, 1, true⟩] [] []).1 =
      Multiset.ofList (buildGraph 1 true
        [⟨2, some 7, IType.save, none⟩, ⟨1, some 7, IType.view, none⟩]
        [⟨1, 7, 1, true⟩] [] []).1) :=
  claim_C6 1 true (List.Perm.swap _ _ _) (List.Perm.refl _)
    (List.Perm.refl _) (List.Perm.refl _)

end Luna
